import Mathlib

/-!
Ark restic server: lifecycle orchestration.

A shallow embedding of `pkg/cmd/cli/restic/server.go` (the restic server
command, its constructor `newResticServer` and its `run` method) and of
`pkg/generated/clientset/versioned/typed/ark/v1/ark_client.go`
(`NewForConfig`, `setConfigDefaults`).

Calls that leave these two files (Kubernetes client construction, the API
server, the azure credential helper) are inputs of the model: a `World`
fixes what each of them answers.  Every call the code makes is recorded, in
program order, in a trace of `Event`s.
-/

namespace Ark

/-! ## Go values -/

/-- A non-nil Go `error` value.  A nilable error is an `Option GoError`. -/
inductive GoError where
  | base (msg : String)
  | withStack (cause : GoError)
  deriving DecidableEq, Repr

/-- The function `errors.WithStack`: nil stays nil, any other error is wrapped. -/
def WithStack : Option GoError → Option GoError
  | none => none
  | some e => some (GoError.withStack e)

/-- The process environment: the bindings made so far, most recent first. -/
abbrev Env := List (String × String)

/-- The function `os.Getenv`: the value bound to `key`, the empty string when unset. -/
def Getenv (env : Env) (key : String) : String :=
  match env.lookup key with
  | some v => v
  | none => ""

/-- The constant `metav1.NamespaceAll`. -/
def NamespaceAll : String := ""

/-- The type `schema.GroupVersion`. -/
structure GroupVersion where
  Group : String
  Version : String
  deriving DecidableEq, Repr

/-- A negotiated serializer: `serializer.DirectCodecFactory` over a codec factory. -/
structure Serializer where
  CodecFactory : String
  deriving DecidableEq, Repr

/-- The fields of `rest.Config` that the code reads or writes; `Other` stands
for all remaining fields. -/
structure RestConfig where
  Host : String
  APIPath : String
  GroupVersion : Option GroupVersion
  NegotiatedSerializer : Option Serializer
  UserAgent : String
  Other : List (String × String)
  deriving DecidableEq, Repr

/-- A handle of type `kubernetes.Interface`. -/
structure KubeClient where
  config : RestConfig
  deriving DecidableEq, Repr

/-- A handle of type `clientset.Interface`. -/
structure ArkClient where
  config : RestConfig
  deriving DecidableEq, Repr

/-- The type `logrus.FieldLogger`. -/
structure FieldLogger where
  level : String
  deriving DecidableEq, Repr

/-- The spec of a backup storage location: provider and provider configuration. -/
structure BackupStorageLocationSpec where
  Provider : String
  Config : List (String × String)
  deriving DecidableEq, Repr

/-- The object `v1.BackupStorageLocation`. -/
structure BackupStorageLocation where
  Namespace : String
  Name : String
  Spec : BackupStorageLocationSpec
  deriving DecidableEq, Repr

/-- The fields of `metav1.ListOptions` relevant to list and watch calls. -/
structure ListOptions where
  LabelSelector : String
  FieldSelector : String
  ResourceVersion : String
  deriving DecidableEq, Repr

/-- A context: the background context or a cancellable child of a parent. -/
inductive Context where
  | background
  | cancelCtx (parent : Context) (id : Nat)
  deriving DecidableEq, Repr

/-- A cancel function: cancels the context it was created with. -/
structure CancelFunc where
  target : Nat
  deriving DecidableEq, Repr

/-- The channel returned by `ctx.Done()`. -/
structure DoneChan where
  source : Context
  deriving DecidableEq, Repr

/-- The method `ctx.Done()`. -/
def Context.Done (ctx : Context) : DoneChan := ⟨ctx⟩

/-- The function `context.WithCancel`: a new child context with identity `fresh`
and the cancel function paired with it. -/
def WithCancel (parent : Context) (fresh : Nat) : Context × CancelFunc :=
  (Context.cancelCtx parent fresh, ⟨fresh⟩)

/-- Which resource a stand-alone informer lists and watches. -/
inductive Resource where
  | pods
  | secrets
  deriving DecidableEq, Repr

/-- A `cache.SharedIndexInformer` as built by `NewFilteredPodInformer` and
`NewFilteredSecretInformer`.  The tweak function runs each time a list or watch
call is prepared; it sees the process environment of that moment. -/
structure SharedIndexInformer where
  resource : Resource
  client : KubeClient
  ns : String
  resyncPeriod : Nat
  indexers : List String
  tweakListOptions : Env → ListOptions → ListOptions

/-- The function `corev1informers.NewFilteredPodInformer`. -/
def NewFilteredPodInformer (client : KubeClient) (ns : String) (resyncPeriod : Nat)
    (indexers : List String) (tweakListOptions : Env → ListOptions → ListOptions) :
    SharedIndexInformer :=
  ⟨Resource.pods, client, ns, resyncPeriod, indexers, tweakListOptions⟩

/-- The function `corev1informers.NewFilteredSecretInformer`. -/
def NewFilteredSecretInformer (client : KubeClient) (ns : String) (resyncPeriod : Nat)
    (indexers : List String) (tweakListOptions : Env → ListOptions → ListOptions) :
    SharedIndexInformer :=
  ⟨Resource.secrets, client, ns, resyncPeriod, indexers, tweakListOptions⟩

/-- The factory built by `informers.NewFilteredSharedInformerFactory`. -/
structure ArkInformerFactory where
  client : ArkClient
  defaultResync : Nat
  ns : String
  tweakListOptions : Option (ListOptions → ListOptions)

/-- The factory built by `kubeinformers.NewSharedInformerFactory`. -/
structure KubeInformerFactory where
  client : KubeClient
  defaultResync : Nat
  deriving DecidableEq, Repr

/-- The struct `resticServer`. -/
structure resticServer where
  kubeClient : KubeClient
  arkClient : ArkClient
  arkInformerFactory : ArkInformerFactory
  kubeInformerFactory : KubeInformerFactory
  podInformer : SharedIndexInformer
  secretInformer : SharedIndexInformer
  logger : FieldLogger
  ctx : Context
  cancelFunc : CancelFunc

/-- The six background tasks that `run` starts. -/
inductive Task where
  | backupController
  | restoreController
  | arkInformerFactory
  | kubeInformerFactory
  | podInformer
  | secretInformer
  deriving DecidableEq, Repr

/-- One observable step of the process. -/
inductive Event where
  | clientConfig (baseName : String)
  | kubernetesNewForConfig
  | clientsetNewForConfig
  | getBackupStorageLocation (ns name : String)
  | setResticEnvVars (config : List (String × String))
  | newFilteredPodInformer (ns : String)
  | newFilteredSecretInformer (ns : String)
  | withCancel (id : Nat)
  | newFilteredSharedInformerFactory (ns : String)
  | newSharedInformerFactory
  | cancelOnShutdown (target : Nat)
  | logInfo (msg : String)
  | newPodVolumeBackupController (nodeName : String)
  | newPodVolumeRestoreController (nodeName : String)
  | wgAdd (delta : Nat)
  | goStmt (t : Task)
  | started (t : Task)
  | returned (t : Task)
  | wgDone (t : Task)
  | ctxDoneReceived
  | wgWaitReturned
  | cancelCalled (target : Nat)
  | fatalExit
  | nilDereference
  deriving DecidableEq, Repr

/-- What the calls that leave `server.go` answer. -/
structure World where
  /-- The function `client.Config(kubeconfig, kubecontext, baseName)`. -/
  clientConfig : String → String → String → Except GoError RestConfig
  /-- The function `kubernetes.NewForConfig`. -/
  kubernetesNewForConfig : RestConfig → Except GoError KubeClient
  /-- The function `clientset.NewForConfig`. -/
  clientsetNewForConfig : RestConfig → Except GoError ArkClient
  /-- The call `arkClient.ArkV1().BackupStorageLocations(ns).Get(name, opts)`. -/
  getBackupStorageLocation : ArkClient → String → String → Except GoError BackupStorageLocation
  /-- The function `azure.SetResticEnvVars`: the environment it leaves behind and its error. -/
  setResticEnvVars : List (String × String) → Env → Env × Option GoError
  /-- The constant `restic.CredentialsSecretName`. -/
  credentialsSecretName : String

/-- The process state that `newResticServer` reads and writes: the environment
and the identity the next context will get. -/
structure Proc where
  env : Env
  nextCtx : Nat
  deriving DecidableEq, Repr

/-- The result pair of `newResticServer`, with the process state it leaves and
the calls it made. -/
structure Startup where
  server : Option resticServer
  err : Option GoError
  proc : Proc
  trace : List Event

/-- The function `newResticServer` (server.go, lines 89 to 157). -/
def newResticServer (w : World) (p : Proc) (logger : FieldLogger)
    (baseName locationName : String) : Startup :=
  match w.clientConfig "" "" baseName with
  | .error err => ⟨none, some err, p, [Event.clientConfig baseName]⟩
  | .ok clientConfig =>
  match w.kubernetesNewForConfig clientConfig with
  | .error err =>
    ⟨none, WithStack (some err), p, [Event.clientConfig baseName, Event.kubernetesNewForConfig]⟩
  | .ok kubeClient =>
  match w.clientsetNewForConfig clientConfig with
  | .error err =>
    ⟨none, WithStack (some err), p,
      [Event.clientConfig baseName, Event.kubernetesNewForConfig, Event.clientsetNewForConfig]⟩
  | .ok arkClient =>
  let tr := [Event.clientConfig baseName, Event.kubernetesNewForConfig,
    Event.clientsetNewForConfig,
    Event.getBackupStorageLocation (Getenv p.env "HEPTIO_ARK_NAMESPACE") locationName]
  match w.getBackupStorageLocation arkClient (Getenv p.env "HEPTIO_ARK_NAMESPACE") locationName with
  | .error err => ⟨none, WithStack (some err), p, tr⟩
  | .ok location =>
  let prov : Env × Option GoError × List Event :=
    if location.Spec.Provider = "azure" then
      ((w.setResticEnvVars location.Spec.Config p.env).1,
       (w.setResticEnvVars location.Spec.Config p.env).2,
       [Event.setResticEnvVars location.Spec.Config])
    else (p.env, none, [])
  match prov.2.1 with
  | some err => ⟨none, some err, { p with env := prov.1 }, tr ++ prov.2.2⟩
  | none =>
  let env := prov.1
  let podInformer := NewFilteredPodInformer kubeClient NamespaceAll 0 ["namespace"]
    (fun e opts => { opts with FieldSelector := "spec.nodeName=" ++ Getenv e "NODE_NAME" })
  let secretInformer := NewFilteredSecretInformer kubeClient
    (Getenv env "HEPTIO_ARK_NAMESPACE") 0 ["namespace"]
    (fun _ opts => { opts with FieldSelector := "metadata.name=" ++ w.credentialsSecretName })
  let cc := WithCancel Context.background p.nextCtx
  ⟨some
    { kubeClient := kubeClient
      arkClient := arkClient
      arkInformerFactory := ⟨arkClient, 0, Getenv env "HEPTIO_ARK_NAMESPACE", none⟩
      kubeInformerFactory := ⟨kubeClient, 0⟩
      podInformer := podInformer
      secretInformer := secretInformer
      logger := logger
      ctx := cc.1
      cancelFunc := cc.2 },
   none,
   { env := env, nextCtx := p.nextCtx + 1 },
   tr ++ prov.2.2 ++
     [Event.newFilteredPodInformer NamespaceAll,
      Event.newFilteredSecretInformer (Getenv env "HEPTIO_ARK_NAMESPACE"),
      Event.withCancel p.nextCtx,
      Event.newFilteredSharedInformerFactory (Getenv env "HEPTIO_ARK_NAMESPACE"),
      Event.newSharedInformerFactory]⟩

/-- Events that construct an informer, an informer factory or a cancellable context. -/
def Event.constructs : Event → Bool
  | Event.newFilteredPodInformer _ => true
  | Event.newFilteredSecretInformer _ => true
  | Event.withCancel _ => true
  | Event.newFilteredSharedInformerFactory _ => true
  | Event.newSharedInformerFactory => true
  | _ => false

/-- Events that start a watch stream or a reconciliation task. -/
def Event.starts : Event → Bool
  | Event.started _ => true
  | _ => false

/-- Some startup step of `newResticServer` fails: each case names the step that
returns a non-nil error after the steps before it succeeded. -/
inductive StartupFails (w : World) (p : Proc) (baseName locationName : String) : Prop where
  | clientConfig (e : GoError) :
      w.clientConfig "" "" baseName = .error e → StartupFails w p baseName locationName
  | kubernetesNewForConfig (cfg : RestConfig) (e : GoError) :
      w.clientConfig "" "" baseName = .ok cfg →
      w.kubernetesNewForConfig cfg = .error e → StartupFails w p baseName locationName
  | clientsetNewForConfig (cfg : RestConfig) (kc : KubeClient) (e : GoError) :
      w.clientConfig "" "" baseName = .ok cfg →
      w.kubernetesNewForConfig cfg = .ok kc →
      w.clientsetNewForConfig cfg = .error e → StartupFails w p baseName locationName
  | getLocation (cfg : RestConfig) (kc : KubeClient) (ac : ArkClient) (e : GoError) :
      w.clientConfig "" "" baseName = .ok cfg →
      w.kubernetesNewForConfig cfg = .ok kc →
      w.clientsetNewForConfig cfg = .ok ac →
      w.getBackupStorageLocation ac (Getenv p.env "HEPTIO_ARK_NAMESPACE") locationName = .error e →
      StartupFails w p baseName locationName
  | setResticEnvVars (cfg : RestConfig) (kc : KubeClient) (ac : ArkClient)
      (loc : BackupStorageLocation) (e : GoError) :
      w.clientConfig "" "" baseName = .ok cfg →
      w.kubernetesNewForConfig cfg = .ok kc →
      w.clientsetNewForConfig cfg = .ok ac →
      w.getBackupStorageLocation ac (Getenv p.env "HEPTIO_ARK_NAMESPACE") locationName = .ok loc →
      loc.Spec.Provider = "azure" →
      (w.setResticEnvVars loc.Spec.Config p.env).2 = some e →
      StartupFails w p baseName locationName

/-! ## The method `run` -/

/-- The arguments handed to `NewPodVolumeBackupController` and
`NewPodVolumeRestoreController`. -/
structure ControllerArgs where
  logger : FieldLogger
  informerFactory : ArkInformerFactory
  client : ArkClient
  podInformer : SharedIndexInformer
  secretInformer : SharedIndexInformer
  pvcInformerFactory : KubeInformerFactory
  nodeName : String

/-- The call a goroutine makes: a controller is run with a context and a worker
count, a watch-stream synchronizer with a stop channel. -/
inductive TaskCall where
  | controllerRun (t : Task) (ctx : Context) (numWorkers : Nat)
  | informerRun (t : Task) (stopCh : DoneChan)

/-- The task a call belongs to. -/
def TaskCall.task : TaskCall → Task
  | TaskCall.controllerRun t _ _ => t
  | TaskCall.informerRun t _ => t

/-- The context whose cancellation a call observes. -/
def TaskCall.token : TaskCall → Context
  | TaskCall.controllerRun _ ctx _ => ctx
  | TaskCall.informerRun _ stopCh => stopCh.source

/-- The body of a `go` statement: the call, and whether the goroutine wraps it
with `defer wg.Done()`. -/
structure GoBody where
  deferWgDone : Bool
  call : TaskCall

/-- The statements of `run`. -/
inductive Stmt where
  | cancelOnShutdown (cancel : CancelFunc) (logger : FieldLogger)
  | logInfo (logger : FieldLogger) (msg : String)
  | newPodVolumeBackupController (args : ControllerArgs)
  | newPodVolumeRestoreController (args : ControllerArgs)
  | wgAdd (delta : Nat)
  | go (body : GoBody)
  | recvDone (ch : DoneChan)
  | wgWait

/-- The method `resticServer.run` (server.go, lines 159 to 207), statement by
statement; `env` is the process environment while it executes. -/
def run (s : resticServer) (env : Env) : List Stmt :=
  [ Stmt.cancelOnShutdown s.cancelFunc s.logger,
    Stmt.logInfo s.logger "Starting controllers",
    Stmt.newPodVolumeBackupController
      ⟨s.logger, s.arkInformerFactory, s.arkClient, s.podInformer, s.secretInformer,
        s.kubeInformerFactory, Getenv env "NODE_NAME"⟩,
    Stmt.wgAdd 1,
    Stmt.go ⟨true, TaskCall.controllerRun Task.backupController s.ctx 1⟩,
    Stmt.newPodVolumeRestoreController
      ⟨s.logger, s.arkInformerFactory, s.arkClient, s.podInformer, s.secretInformer,
        s.kubeInformerFactory, Getenv env "NODE_NAME"⟩,
    Stmt.wgAdd 1,
    Stmt.go ⟨true, TaskCall.controllerRun Task.restoreController s.ctx 1⟩,
    Stmt.go ⟨false, TaskCall.informerRun Task.arkInformerFactory s.ctx.Done⟩,
    Stmt.go ⟨false, TaskCall.informerRun Task.kubeInformerFactory s.ctx.Done⟩,
    Stmt.go ⟨false, TaskCall.informerRun Task.podInformer s.ctx.Done⟩,
    Stmt.go ⟨false, TaskCall.informerRun Task.secretInformer s.ctx.Done⟩,
    Stmt.logInfo s.logger "Controllers started successfully",
    Stmt.recvDone s.ctx.Done,
    Stmt.logInfo s.logger "Waiting for all controllers to shut down gracefully",
    Stmt.wgWait ]

/-- Where a goroutine stands: created by `go`, inside its call, back from its
call, or gone (its deferred `wg.Done()`, if any, has run). -/
inductive Phase where
  | ready
  | running
  | returned
  | exited
  deriving DecidableEq, Repr

/-- A goroutine: what it runs and where it stands. -/
structure Goroutine where
  body : GoBody
  phase : Phase

/-- The state of the process while `run` executes: the position of the main
goroutine in `run`, the cancel functions held by the shutdown-signal listener,
the contexts cancelled so far, the counter of the `sync.WaitGroup`, the
goroutines created so far and the events so far. -/
structure RunState where
  pc : Nat
  handlers : List CancelFunc
  cancelled : List Nat
  wg : Nat
  gor : Task → Option Goroutine
  log : List Event

/-- The state in which `run` is entered: `var wg sync.WaitGroup` starts at zero. -/
def RunState.init : RunState := ⟨0, [], [], 0, fun _ => none, []⟩

/-- Whether a context has been cancelled, itself or through a parent. -/
def Context.cancelledIn (cancelled : List Nat) : Context → Bool
  | Context.background => false
  | Context.cancelCtx parent id => cancelled.contains id || parent.cancelledIn cancelled

/-- Who takes the next step: the main goroutine, the goroutine of a task, or
the shutdown-signal listener calling the `k`-th cancel function it holds. -/
inductive Action where
  | main
  | task (t : Task)
  | cancel (k : Nat)
  deriving DecidableEq, Repr

/-- One statement of the main goroutine.  A receive on a done channel is
enabled only once the context is cancelled, `wg.Wait()` only when the counter
is zero; a blocked statement gives `none`. -/
def stepMain (st : RunState) : Stmt → Option RunState
  | Stmt.cancelOnShutdown cancel _ =>
    some { st with pc := st.pc + 1, handlers := cancel :: st.handlers,
                   log := st.log ++ [Event.cancelOnShutdown cancel.target] }
  | Stmt.logInfo _ msg =>
    some { st with pc := st.pc + 1, log := st.log ++ [Event.logInfo msg] }
  | Stmt.newPodVolumeBackupController args =>
    some { st with pc := st.pc + 1,
                   log := st.log ++ [Event.newPodVolumeBackupController args.nodeName] }
  | Stmt.newPodVolumeRestoreController args =>
    some { st with pc := st.pc + 1,
                   log := st.log ++ [Event.newPodVolumeRestoreController args.nodeName] }
  | Stmt.wgAdd delta =>
    some { st with pc := st.pc + 1, wg := st.wg + delta, log := st.log ++ [Event.wgAdd delta] }
  | Stmt.go body =>
    match st.gor body.call.task with
    | some _ => none
    | none =>
      some { st with pc := st.pc + 1,
                     gor := Function.update st.gor body.call.task (some ⟨body, Phase.ready⟩),
                     log := st.log ++ [Event.goStmt body.call.task] }
  | Stmt.recvDone ch =>
    if ch.source.cancelledIn st.cancelled then
      some { st with pc := st.pc + 1, log := st.log ++ [Event.ctxDoneReceived] }
    else none
  | Stmt.wgWait =>
    if st.wg = 0 then
      some { st with pc := st.pc + 1, log := st.log ++ [Event.wgWaitReturned] }
    else none

/-- One step of the goroutine of task `t`: it enters its call, the call
returns (at any moment, the task decides), and the goroutine ends, running
`wg.Done()` when it was deferred.  `wg.Done()` on a zero counter panics. -/
def stepTask (st : RunState) (t : Task) : Option RunState :=
  match st.gor t with
  | none => none
  | some g =>
    match g.phase with
    | Phase.ready =>
      some { st with gor := Function.update st.gor t (some ⟨g.body, Phase.running⟩),
                     log := st.log ++ [Event.started t] }
    | Phase.running =>
      some { st with gor := Function.update st.gor t (some ⟨g.body, Phase.returned⟩),
                     log := st.log ++ [Event.returned t] }
    | Phase.returned =>
      if g.body.deferWgDone then
        if st.wg = 0 then none
        else
          some { st with wg := st.wg - 1,
                         gor := Function.update st.gor t (some ⟨g.body, Phase.exited⟩),
                         log := st.log ++ [Event.wgDone t] }
      else some { st with gor := Function.update st.gor t (some ⟨g.body, Phase.exited⟩) }
    | Phase.exited => none

/-- A step of the listener installed by `signals.CancelOnShutdown`, which is
not among the sources: it may call a cancel function it was handed, at any
moment from then on.  Nobody else holds a cancel function. -/
def stepCancel (st : RunState) (k : Nat) : Option RunState :=
  match st.handlers[k]? with
  | none => none
  | some cancel =>
    some { st with cancelled := cancel.target :: st.cancelled,
                   log := st.log ++ [Event.cancelCalled cancel.target] }

/-- One step of the process running the statements `prog`. -/
def step (prog : List Stmt) (st : RunState) : Action → Option RunState
  | Action.main =>
    match prog[st.pc]? with
    | none => none
    | some stmt => stepMain st stmt
  | Action.task t => stepTask st t
  | Action.cancel k => stepCancel st k

/-- The state after a schedule: `none` when the schedule asks for a step that
is not enabled. -/
def exec (prog : List Stmt) : RunState → List Action → Option RunState
  | st, [] => some st
  | st, a :: rest =>
    match step prog st a with
    | none => none
    | some st' => exec prog st' rest

/-- The main goroutine has returned from `run`. -/
def RunState.mainReturned (prog : List Stmt) (st : RunState) : Bool :=
  decide (prog.length ≤ st.pc)

/-- The phase of the goroutine of task `t`, `none` before its `go` statement. -/
def RunState.phase (st : RunState) (t : Task) : Option Phase :=
  (st.gor t).map Goroutine.phase

/-- The call of task `t` has returned. -/
def RunState.finished (st : RunState) (t : Task) : Bool :=
  st.phase t = some Phase.returned || st.phase t = some Phase.exited

/-- The call of task `t` is in progress. -/
def RunState.inProgress (st : RunState) (t : Task) : Bool :=
  st.phase t = some Phase.running

/-! ## The server command -/

/-- The `Run` closure of `NewServerCommand` (server.go, lines 57 to 68): the
events of one execution under a schedule for the goroutines of `run`.
`checkError` is `cmd.CheckError`, which is not among the sources: it tells
whether the process exits.  When it lets a failed startup through, `s.run()`
has a nil receiver and panics on `s.cancelFunc`, its first evaluation. -/
def serverCommand (checkError : Option GoError → Bool) (w : World) (p : Proc)
    (logLevel gitSHA parentName name location : String)
    (sched : List Action) : Option (List Event) :=
  let pre := [Event.logInfo ("Setting log-level to " ++ logLevel.toUpper),
    Event.logInfo ("Starting Ark restic server " ++ gitSHA)]
  let r := newResticServer w p ⟨logLevel⟩ (parentName ++ "-" ++ name) location
  if checkError r.err then some (pre ++ r.trace ++ [Event.fatalExit])
  else
    match r.server with
    | none => some (pre ++ r.trace ++ [Event.nilDereference])
    | some s =>
      (exec (run s r.proc.env) RunState.init sched).map (fun st => pre ++ r.trace ++ st.log)

/-- Events emitted by `run` and by the goroutines it creates, its log lines
apart. -/
def Event.ofRun : Event → Bool
  | Event.cancelOnShutdown _ => true
  | Event.newPodVolumeBackupController _ => true
  | Event.newPodVolumeRestoreController _ => true
  | Event.wgAdd _ => true
  | Event.goStmt _ => true
  | Event.started _ => true
  | Event.returned _ => true
  | Event.wgDone _ => true
  | Event.ctxDoneReceived => true
  | Event.wgWaitReturned => true
  | Event.cancelCalled _ => true
  | _ => false

/-! ## The generated client: `ark_client.go` -/

/-- The package-level values `setConfigDefaults` reads: `v1.SchemeGroupVersion`,
`scheme.Codecs` and the result of `rest.DefaultKubernetesUserAgent()`. -/
structure ClientGlobals where
  SchemeGroupVersion : GroupVersion
  Codecs : String
  DefaultKubernetesUserAgent : String

/-- A handle of type `rest.Interface`. -/
structure RESTClient where
  config : RestConfig
  handle : Nat
  deriving DecidableEq, Repr

/-- The struct `ArkV1Client`. -/
structure ArkV1Client where
  restClient : RESTClient
  deriving DecidableEq, Repr

/-- The memory that holds `rest.Config` values: a pointer is an index into it,
a pointer outside of it is nil or dangling. -/
abbrev Store := List RestConfig

/-- An assignment through a pointer; `none` is a nil pointer dereference. -/
def Store.modify (st : Store) (ptr : Nat) (f : RestConfig → RestConfig) : Option Store :=
  match st[ptr]? with
  | none => none
  | some v => some (st.set ptr (f v))

/-- The function `setConfigDefaults` (ark_client.go, lines 115 to 126), with
its pointer argument: the memory it leaves and the error it returns. -/
def setConfigDefaults (g : ClientGlobals) (st : Store) (config : Nat) :
    Option (Store × Option GoError) :=
  let gv := g.SchemeGroupVersion
  match st.modify config (fun v => { v with GroupVersion := some gv }) with
  | none => none
  | some st =>
  match st.modify config (fun v => { v with APIPath := "/apis" }) with
  | none => none
  | some st =>
  match st.modify config (fun v => { v with NegotiatedSerializer := some ⟨g.Codecs⟩ }) with
  | none => none
  | some st =>
  match st[config]? with
  | none => none
  | some v =>
    if v.UserAgent = "" then
      match st.modify config (fun v => { v with UserAgent := g.DefaultKubernetesUserAgent }) with
      | none => none
      | some st => some (st, none)
    else some (st, none)

/-- The result of `NewForConfig`: the client and error it returns and the
memory it leaves. -/
structure NewForConfigResult where
  client : Option ArkV1Client
  err : Option GoError
  store : Store
  deriving DecidableEq, Repr

/-- The function `NewForConfig` (ark_client.go, lines 88 to 98).  The local
variable `config` lives in a new cell of the memory; `none` is a nil pointer
dereference. -/
def NewForConfig (g : ClientGlobals) (RESTClientFor : RestConfig → Except GoError RESTClient)
    (st : Store) (c : Nat) : Option NewForConfigResult :=
  match st[c]? with
  | none => none
  | some v =>
    let config := st.length
    let st := st ++ [v]
    match setConfigDefaults g st config with
    | none => none
    | some (st, some err) => some ⟨none, some err, st⟩
    | some (st, none) =>
      match st[config]? with
      | none => none
      | some built =>
        match RESTClientFor built with
        | .error err => some ⟨none, some err, st⟩
        | .ok client => some ⟨some ⟨client⟩, none, st⟩

/-! ## The API server seen through list and watch -/

/-- A pod, as far as its key and its scheduling target go. -/
structure Pod where
  Namespace : String
  Name : String
  NodeName : String
  deriving DecidableEq, Repr

/-- A secret: its key and its payload. -/
structure Secret where
  Namespace : String
  Name : String
  Data : String
  deriving DecidableEq, Repr

/-- An API server: the objects it stores and what it answers to a list or
watch call for a namespace and list options. -/
structure ApiServer where
  pods : List Pod
  secrets : List Secret
  listPods : String → ListOptions → List Pod
  listSecrets : String → ListOptions → List Secret

/-- Namespace scoping of a typed client: `metav1.NamespaceAll` spans every
namespace, any other string names one namespace. -/
def inScope (ns objNs : String) : Bool :=
  ns == NamespaceAll || ns == objNs

/-- The characters with a meaning of their own inside a field selector: the
separator of requirements, the operator sign and the escape character. -/
def specialChar (c : Char) : Bool :=
  c == ',' || c == '=' || c == '\\'

/-- A value without special characters: a field selector can carry it as it is. -/
def PlainValue (v : String) : Bool :=
  v.data.all (fun c => !specialChar c)

/-- The server answers the pod selector `spec.nodeName=v`, sent with no label
selector, with exactly the stored pods in scope whose `spec.nodeName` is `v`. -/
def ApiServer.HonoursNodeName (api : ApiServer) (v : String) : Prop :=
  ∀ (ns : String) (opts : ListOptions) (x : Pod),
    opts.LabelSelector = "" → opts.FieldSelector = "spec.nodeName=" ++ v →
    (x ∈ api.listPods ns opts ↔ x ∈ api.pods ∧ inScope ns x.Namespace = true ∧ x.NodeName = v)

/-- The server answers the secret selector `metadata.name=v`, sent with no
label selector, with exactly the stored secrets in scope whose name is `v`. -/
def ApiServer.HonoursSecretName (api : ApiServer) (v : String) : Prop :=
  ∀ (ns : String) (opts : ListOptions) (x : Secret),
    opts.LabelSelector = "" → opts.FieldSelector = "metadata.name=" ++ v →
    (x ∈ api.listSecrets ns opts ↔
      x ∈ api.secrets ∧ inScope ns x.Namespace = true ∧ x.Name = v)

/-- The server honours field selectors: it answers `spec.nodeName=v` and
`metadata.name=v` as written for every value `v` without special characters.
Nothing is asked of it for a value with a comma, an equals sign or a
backslash, which a selector cannot carry as it is. -/
def ApiServer.HonoursFieldSelectors (api : ApiServer) : Prop :=
  ∀ v : String, PlainValue v = true → api.HonoursNodeName v ∧ api.HonoursSecretName v

/-- Stored secrets are identified by namespace and name. -/
def ApiServer.UniqueSecretKeys (api : ApiServer) : Prop :=
  ∀ a ∈ api.secrets, ∀ b ∈ api.secrets, a.Namespace = b.Namespace → a.Name = b.Name → a = b

/-- The list options an informer sends: those of the reflector, passed through
the tweak function in the environment of that moment. -/
def SharedIndexInformer.listOptions (inf : SharedIndexInformer) (env : Env) : ListOptions :=
  inf.tweakListOptions env ⟨"", "", "0"⟩

/-- The content of a pod informer's cache: what the server answers to its
list and watch calls. -/
def podCache (api : ApiServer) (inf : SharedIndexInformer) (env : Env) : List Pod :=
  api.listPods inf.ns (inf.listOptions env)

/-- The content of a secret informer's cache. -/
def secretCache (api : ApiServer) (inf : SharedIndexInformer) (env : Env) : List Secret :=
  api.listSecrets inf.ns (inf.listOptions env)

/-- One requirement of a field selector: a field, whether the operator is
`!=`, and the value. -/
structure Requirement where
  field : List Char
  negated : Bool
  value : List Char
  deriving DecidableEq, Repr

/-- The terms of a selector: it is cut at every comma that is not escaped.
The first term of the result is the one under construction. -/
def splitTermsAux : Bool → List Char → List (List Char)
  | _, [] => [[]]
  | inSlash, c :: cs =>
    if inSlash then
      match splitTermsAux false cs with
      | [] => [[c]]
      | t :: ts => (c :: t) :: ts
    else if c = ',' then [] :: splitTermsAux false cs
    else
      match splitTermsAux (c == '\\') cs with
      | [] => [[c]]
      | t :: ts => (c :: t) :: ts

/-- The non-empty terms of a selector. -/
def splitTerms (s : List Char) : List (List Char) :=
  (splitTermsAux false s).filter (fun t => !t.isEmpty)

/-- The value of a requirement with its escape sequences resolved; a special
character that is not escaped, or a backslash before anything else, makes the
selector invalid. -/
def unescapeValue : List Char → Option (List Char)
  | [] => some []
  | [c] => if specialChar c then none else some [c]
  | c :: d :: rest =>
    if c = '\\' then
      if specialChar d then (unescapeValue rest).map (fun r => d :: r) else none
    else if specialChar c then none
    else (unescapeValue (d :: rest)).map (fun r => c :: r)

/-- One term read as `field=value`, `field==value` or `field!=value`: the
operator is the first one met from the left. -/
def parseTerm (t : List Char) : Option Requirement :=
  match t.dropWhile (fun c => c != '=') with
  | [] => none
  | _ :: rest =>
    let lhs := t.takeWhile (fun c => c != '=')
    if lhs.getLast? = some '!' then
      (unescapeValue rest).map (fun v => ⟨lhs.dropLast, true, v⟩)
    else
      match rest with
      | [] => some ⟨lhs, false, []⟩
      | d :: rest' =>
        if d = '=' then (unescapeValue rest').map (fun v => ⟨lhs, false, v⟩)
        else (unescapeValue (d :: rest')).map (fun v => ⟨lhs, false, v⟩)

/-- A field selector read as the conjunction of its requirements; `none` when
a term cannot be read. -/
def parseSelector (s : String) : Option (List Requirement) :=
  (splitTerms s.data).mapM parseTerm

/-- The field of a pod a requirement speaks about; other fields are not
supported. -/
def Pod.field (x : Pod) (f : List Char) : Option String :=
  if f = "spec.nodeName".data then some x.NodeName
  else if f = "metadata.name".data then some x.Name
  else if f = "metadata.namespace".data then some x.Namespace
  else none

/-- The field of a secret a requirement speaks about. -/
def Secret.field (x : Secret) (f : List Char) : Option String :=
  if f = "metadata.name".data then some x.Name
  else if f = "metadata.namespace".data then some x.Namespace
  else none

/-- Whether an object with the given fields meets a requirement; a field that
is not supported is met by no object. -/
def Requirement.holds (r : Requirement) (field : List Char → Option String) : Bool :=
  match field r.field with
  | none => false
  | some v => if r.negated then v.data != r.value else v.data == r.value

/-- A server that reads field selectors the way the Kubernetes API server
does: requirements separated by commas, each with one of the operators `=`,
`==` and `!=`, values with escape sequences.  A selector it cannot read is
refused and nothing is listed. -/
def kubeServer (pods : List Pod) (secrets : List Secret) : ApiServer where
  pods := pods
  secrets := secrets
  listPods := fun ns opts =>
    match parseSelector opts.FieldSelector with
    | none => []
    | some reqs =>
      pods.filter (fun x => inScope ns x.Namespace && reqs.all (fun r => r.holds x.field))
  listSecrets := fun ns opts =>
    match parseSelector opts.FieldSelector with
    | none => []
    | some reqs =>
      secrets.filter (fun x => inScope ns x.Namespace && reqs.all (fun r => r.holds x.field))

/-- Events that create a cancellable context. -/
def Event.isWithCancel : Event → Bool
  | Event.withCancel _ => true
  | _ => false

/-! ## Invariant of `run` -/

/-- The position in `run` of the `go` statement of each task. -/
def spawnIndex : Task → Nat
  | Task.backupController => 4
  | Task.restoreController => 7
  | Task.arkInformerFactory => 8
  | Task.kubeInformerFactory => 9
  | Task.podInformer => 10
  | Task.secretInformer => 11

/-- The two reconciliation loops. -/
def Task.isController : Task → Bool
  | Task.backupController => true
  | Task.restoreController => true
  | _ => false

/-- How many `wg.Done()` calls have run. -/
def exitedCount (st : RunState) : Nat :=
  (if st.phase Task.backupController = some Phase.exited then 1 else 0) +
  (if st.phase Task.restoreController = some Phase.exited then 1 else 0)

/-- How many `wg.Add(1)` calls lie before position `pc` of `run`. -/
def addsBefore (pc : Nat) : Nat :=
  (if 4 ≤ pc then 1 else 0) + (if 7 ≤ pc then 1 else 0)

/-- What holds of a goroutine slot: it is filled exactly once the main
goroutine is past the `go` statement of the task, and its goroutine defers
`wg.Done()` exactly when the task is a reconciliation loop. -/
def taskOk (st : RunState) (t : Task) : Prop :=
  (st.gor t = none ↔ st.pc ≤ spawnIndex t) ∧
  ∀ g, st.gor t = some g → g.body.deferWgDone = t.isController

/-- The invariant of `run` for a server whose context is `ctx`. -/
structure RunInv (ctx : Context) (st : RunState) : Prop where
  pc_le : st.pc ≤ 16
  tasks : ∀ t, taskOk st t
  counter : st.wg + exitedCount st = addsBefore st.pc
  cancelled : 14 ≤ st.pc → ctx.cancelledIn st.cancelled = true
  joined : 16 ≤ st.pc →
    st.phase Task.backupController = some Phase.exited ∧
    st.phase Task.restoreController = some Phase.exited

/-- What holds of the shutdown-signal listener while `run` executes: once the
first statement of `run` is done it holds the cancel function `cancel` and no
other, and only the context of `cancel` has been cancelled. -/
def ListenerInv (cancel : CancelFunc) (st : RunState) : Prop :=
  st.handlers = (if st.pc = 0 then [] else [cancel]) ∧
  ∀ id ∈ st.cancelled, id = cancel.target

/-! ## Sample worlds -/

/-- A transport configuration as `client.Config` may return it. -/
def sampleConfig : RestConfig := ⟨"https://10.0.0.1:6443", "", none, none, "", []⟩

/-- A credential helper in the shape of the spec: it needs the keys
`storageAccount` and `storageAccountKey` of the location configuration. -/
def sampleSetResticEnvVars (config : List (String × String)) (env : Env) : Env × Option GoError :=
  match config.lookup "storageAccount", config.lookup "storageAccountKey" with
  | some a, some k => (("AZURE_ACCOUNT_KEY", k) :: ("AZURE_ACCOUNT_NAME", a) :: env, none)
  | some a, none => (("AZURE_ACCOUNT_NAME", a) :: env, some (GoError.base "InvalidProviderConfig"))
  | none, _ => (env, some (GoError.base "InvalidProviderConfig"))

/-- A cluster that stores the given storage locations. -/
def sampleWorld (locations : List BackupStorageLocation) : World where
  clientConfig := fun _ _ _ => .ok sampleConfig
  kubernetesNewForConfig := fun c => .ok ⟨c⟩
  clientsetNewForConfig := fun c => .ok ⟨c⟩
  getBackupStorageLocation := fun _ ns name =>
    match locations.find? (fun l => l.Namespace == ns && l.Name == name) with
    | some l => .ok l
    | none => .error (GoError.base "location not found")
  setResticEnvVars := sampleSetResticEnvVars
  credentialsSecretName := "ark-restic-credentials"

/-- Scenario A: location `default` exists with provider `aws`. -/
def worldA : World := sampleWorld [⟨"heptio-ark", "default", ⟨"aws", []⟩⟩]

/-- Scenario B: location `default` does not exist. -/
def worldB : World := sampleWorld []

/-- Scenario C: provider `azure` with a configuration that misses a required key. -/
def worldC : World :=
  sampleWorld [⟨"heptio-ark", "default", ⟨"azure", [("storageAccount", "acct")]⟩⟩]

/-- A process environment with both variables set. -/
def sampleProc : Proc := ⟨[("HEPTIO_ARK_NAMESPACE", "heptio-ark"), ("NODE_NAME", "node-7")], 0⟩

/-- A `cmd.CheckError` that ends the process on every non-nil error and on
nothing else. -/
def exitOnError (err : Option GoError) : Bool :=
  err.isSome

/-- Provider `azure` with a complete configuration. -/
def worldD : World :=
  sampleWorld [⟨"heptio-ark", "default",
    ⟨"azure", [("storageAccount", "acct"), ("storageAccountKey", "key")]⟩⟩]

/-- A schedule that lets `run` reach its first `go` statement and then lets
the backup controller start. -/
def schedFirstStart : List Action :=
  [Action.main, Action.main, Action.main, Action.main, Action.main,
    Action.task Task.backupController]

/-- The events of the server command in `worldD` under `schedFirstStart`. -/
def traceFirstStart : List Event :=
  [Event.logInfo ("Setting log-level to " ++ "info".toUpper),
   Event.logInfo ("Starting Ark restic server " ++ "abc123"),
   Event.clientConfig ("ark" ++ "-" ++ "server"),
   Event.kubernetesNewForConfig,
   Event.clientsetNewForConfig,
   Event.getBackupStorageLocation "heptio-ark" "default",
   Event.setResticEnvVars [("storageAccount", "acct"), ("storageAccountKey", "key")],
   Event.newFilteredPodInformer "",
   Event.newFilteredSecretInformer "heptio-ark",
   Event.withCancel 0,
   Event.newFilteredSharedInformerFactory "heptio-ark",
   Event.newSharedInformerFactory,
   Event.cancelOnShutdown 0,
   Event.logInfo "Starting controllers",
   Event.newPodVolumeBackupController "node-7",
   Event.wgAdd 1,
   Event.goStmt Task.backupController,
   Event.started Task.backupController]

/-- The server that `newResticServer` returns in `worldA`. -/
def serverA : resticServer where
  kubeClient := ⟨sampleConfig⟩
  arkClient := ⟨sampleConfig⟩
  arkInformerFactory := ⟨⟨sampleConfig⟩, 0, "heptio-ark", none⟩
  kubeInformerFactory := ⟨⟨sampleConfig⟩, 0⟩
  podInformer := NewFilteredPodInformer ⟨sampleConfig⟩ NamespaceAll 0 ["namespace"]
    (fun e opts => { opts with FieldSelector := "spec.nodeName=" ++ Getenv e "NODE_NAME" })
  secretInformer := NewFilteredSecretInformer ⟨sampleConfig⟩ "heptio-ark" 0 ["namespace"]
    (fun _ opts => { opts with FieldSelector := "metadata.name=" ++ "ark-restic-credentials" })
  logger := ⟨"info"⟩
  ctx := Context.cancelCtx Context.background 0
  cancelFunc := ⟨0⟩

/-- Three steps of the goroutine of a task: it starts, its call returns, it ends. -/
def wholeTask (t : Task) : List Action :=
  [Action.task t, Action.task t, Action.task t]

/-- A graceful shutdown: `run` reaches its receive on the done channel, the
listener cancels the context, both controllers finish, `run` returns. -/
def schedGraceful : List Action :=
  List.replicate 13 Action.main ++ [Action.cancel 0] ++
    wholeTask Task.backupController ++ wholeTask Task.restoreController ++
    [Action.main, Action.main, Action.main]

/-- The state after `schedGraceful`. -/
def stateGraceful : RunState :=
  (exec (run serverA sampleProc.env) RunState.init schedGraceful).getD RunState.init

/-- The same shutdown, but the pod informer has entered `podInformer.Run` and
takes no further step. -/
def schedInformerBehind : List Action :=
  List.replicate 13 Action.main ++ [Action.task Task.podInformer, Action.cancel 0] ++
    wholeTask Task.backupController ++ wholeTask Task.restoreController ++
    [Action.main, Action.main, Action.main]

/-- The state after `schedInformerBehind`. -/
def stateInformerBehind : RunState :=
  (exec (run serverA sampleProc.env) RunState.init schedInformerBehind).getD RunState.init

/-- Both controllers finish early, nobody cancels, and the main goroutine
is asked to go past its receive on the done channel. -/
def schedEarlyFinish : List Action :=
  List.replicate 13 Action.main ++
    wholeTask Task.backupController ++ wholeTask Task.restoreController ++ [Action.main]

/-- A namespaced `Get` is answered only in a named namespace, never in
`metav1.NamespaceAll`. -/
def World.NamespacedGet (w : World) : Prop :=
  ∀ ac ns name loc, w.getBackupStorageLocation ac ns name = .ok loc → ns ≠ NamespaceAll

/-- Credential placement leaves the variable `HEPTIO_ARK_NAMESPACE` as it is. -/
def World.KeepsNamespaceVar (w : World) : Prop :=
  ∀ cfg env, Getenv (w.setResticEnvVars cfg env).1 "HEPTIO_ARK_NAMESPACE" =
    Getenv env "HEPTIO_ARK_NAMESPACE"

/-- Scenario D: a pod on `node-7`, a pod on `node-9` and a pod that is not
scheduled yet; the credentials secret exists in the system namespace and,
under the same name, elsewhere. -/
def clusterD : ApiServer :=
  kubeServer
    [⟨"app", "web-0", "node-7"⟩, ⟨"app", "web-1", "node-9"⟩, ⟨"app", "pending-0", ""⟩]
    [⟨"heptio-ark", "ark-restic-credentials", "k1"⟩,
     ⟨"other", "ark-restic-credentials", "k2"⟩,
     ⟨"heptio-ark", "registry", "k3"⟩]

/-- A process environment whose `NODE_NAME` carries a comma and a second
requirement. -/
def procComma : Proc :=
  ⟨[("HEPTIO_ARK_NAMESPACE", "heptio-ark"), ("NODE_NAME", "node-7,metadata.name=web-0")], 0⟩

/-- A process environment whose `NODE_NAME` starts with an equals sign. -/
def procEquals : Proc :=
  ⟨[("HEPTIO_ARK_NAMESPACE", "heptio-ark"), ("NODE_NAME", "=node-9")], 0⟩

/-- A process environment in which `NODE_NAME` is not set. -/
def procNodeUnset : Proc := ⟨[("HEPTIO_ARK_NAMESPACE", "heptio-ark")], 0⟩

/-- The package-level values of the ark client. -/
def arkGlobals : ClientGlobals := ⟨⟨"ark.heptio.com", "v1"⟩, "scheme.Codecs", "ark/v0 kubernetes"⟩

/-- A transport layer that accepts every configuration with a host. -/
def sampleRESTClientFor (config : RestConfig) : Except GoError RESTClient :=
  if config.Host = "" then .error (GoError.base "host must be a URL or a host:port pair")
  else .ok ⟨config, 1⟩

/-! ## Theorems -/

/-- C1: when any startup step of `newResticServer` fails, the result is a nil
server with a non-nil error, and no informer, informer factory or cancellable
context has been constructed and nothing has been started; and a non-nil
server comes only with a nil error. -/
theorem newResticServer_fails_closed (w : World) (p : Proc) (logger : FieldLogger)
    (baseName locationName : String) :
    (StartupFails w p baseName locationName →
      (newResticServer w p logger baseName locationName).server.isNone = true ∧
      (newResticServer w p logger baseName locationName).err.isSome = true ∧
      (∀ e ∈ (newResticServer w p logger baseName locationName).trace,
        e.constructs = false ∧ e.starts = false) ∧
      (newResticServer w p logger baseName locationName).proc.nextCtx = p.nextCtx) ∧
    ((newResticServer w p logger baseName locationName).server.isSome = true →
      (newResticServer w p logger baseName locationName).err = none) := by
  constructor
  · intro h
    cases h with
    | clientConfig e h1 =>
      simp [newResticServer, h1, Event.constructs, Event.starts]
    | kubernetesNewForConfig cfg e h1 h2 =>
      simp [newResticServer, h1, h2, WithStack, Event.constructs, Event.starts]
    | clientsetNewForConfig cfg kc e h1 h2 h3 =>
      simp [newResticServer, h1, h2, h3, WithStack, Event.constructs, Event.starts]
    | getLocation cfg kc ac e h1 h2 h3 h4 =>
      simp [newResticServer, h1, h2, h3, h4, WithStack, Event.constructs, Event.starts]
    | setResticEnvVars cfg kc ac loc e h1 h2 h3 h4 h5 h6 =>
      simp [newResticServer, h1, h2, h3, h4, h5, h6, Event.constructs, Event.starts]
  · unfold newResticServer
    split
    · simp
    · split
      · simp
      · split
        · simp
        · split
          · simp
          · rename_i location _
            by_cases hp : location.Spec.Provider = "azure"
            · cases hh : (w.setResticEnvVars location.Spec.Config p.env).2 <;> simp [hp, hh]
            · simp [hp]

/-- Scenario B and scenario C end with a nil server and an error, before
anything is constructed. -/
theorem newResticServer_fails_closed_witness :
    ((newResticServer worldB sampleProc ⟨"info"⟩ "ark-server" "default").server.isNone = true ∧
     (newResticServer worldB sampleProc ⟨"info"⟩ "ark-server" "default").err.isSome = true ∧
     (∀ e ∈ (newResticServer worldB sampleProc ⟨"info"⟩ "ark-server" "default").trace,
        e.constructs = false ∧ e.starts = false) ∧
     (newResticServer worldB sampleProc ⟨"info"⟩ "ark-server" "default").proc.nextCtx = 0) ∧
    ((newResticServer worldC sampleProc ⟨"info"⟩ "ark-server" "default").server.isNone = true ∧
     (newResticServer worldC sampleProc ⟨"info"⟩ "ark-server" "default").err.isSome = true ∧
     (∀ e ∈ (newResticServer worldC sampleProc ⟨"info"⟩ "ark-server" "default").trace,
        e.constructs = false ∧ e.starts = false) ∧
     (newResticServer worldC sampleProc ⟨"info"⟩ "ark-server" "default").proc.nextCtx = 0) :=
  ⟨(newResticServer_fails_closed worldB sampleProc ⟨"info"⟩ "ark-server" "default").1
      (StartupFails.getLocation sampleConfig ⟨sampleConfig⟩ ⟨sampleConfig⟩
        (GoError.base "location not found") rfl rfl rfl rfl),
   (newResticServer_fails_closed worldC sampleProc ⟨"info"⟩ "ark-server" "default").1
      (StartupFails.setResticEnvVars sampleConfig ⟨sampleConfig⟩ ⟨sampleConfig⟩
        ⟨"heptio-ark", "default", ⟨"azure", [("storageAccount", "acct")]⟩⟩
        (GoError.base "InvalidProviderConfig") rfl rfl rfl rfl rfl rfl)⟩

/-- What a successful `newResticServer` did: every startup step succeeded, and
the server, the process state and the trace are those of lines 116 to 156. -/
theorem newResticServer_some (w : World) (p : Proc) (logger : FieldLogger)
    (baseName locationName : String) (s : resticServer)
    (h : (newResticServer w p logger baseName locationName).server = some s) :
    ∃ cfg kc ac loc env,
      w.clientConfig "" "" baseName = .ok cfg ∧
      w.kubernetesNewForConfig cfg = .ok kc ∧
      w.clientsetNewForConfig cfg = .ok ac ∧
      w.getBackupStorageLocation ac (Getenv p.env "HEPTIO_ARK_NAMESPACE") locationName = .ok loc ∧
      (loc.Spec.Provider = "azure" →
        w.setResticEnvVars loc.Spec.Config p.env = (env, none)) ∧
      (loc.Spec.Provider ≠ "azure" → env = p.env) ∧
      (newResticServer w p logger baseName locationName).err = none ∧
      (newResticServer w p logger baseName locationName).proc = ⟨env, p.nextCtx + 1⟩ ∧
      (newResticServer w p logger baseName locationName).trace =
        [Event.clientConfig baseName, Event.kubernetesNewForConfig, Event.clientsetNewForConfig,
          Event.getBackupStorageLocation (Getenv p.env "HEPTIO_ARK_NAMESPACE") locationName] ++
        (if loc.Spec.Provider = "azure" then [Event.setResticEnvVars loc.Spec.Config] else []) ++
        [Event.newFilteredPodInformer NamespaceAll,
          Event.newFilteredSecretInformer (Getenv env "HEPTIO_ARK_NAMESPACE"),
          Event.withCancel p.nextCtx,
          Event.newFilteredSharedInformerFactory (Getenv env "HEPTIO_ARK_NAMESPACE"),
          Event.newSharedInformerFactory] ∧
      s = { kubeClient := kc
            arkClient := ac
            arkInformerFactory := ⟨ac, 0, Getenv env "HEPTIO_ARK_NAMESPACE", none⟩
            kubeInformerFactory := ⟨kc, 0⟩
            podInformer := NewFilteredPodInformer kc NamespaceAll 0 ["namespace"]
              (fun e opts =>
                { opts with FieldSelector := "spec.nodeName=" ++ Getenv e "NODE_NAME" })
            secretInformer := NewFilteredSecretInformer kc
              (Getenv env "HEPTIO_ARK_NAMESPACE") 0 ["namespace"]
              (fun _ opts =>
                { opts with FieldSelector := "metadata.name=" ++ w.credentialsSecretName })
            logger := logger
            ctx := Context.cancelCtx Context.background p.nextCtx
            cancelFunc := ⟨p.nextCtx⟩ } := by
  cases h1 : w.clientConfig "" "" baseName with
  | error e => simp [newResticServer, h1] at h
  | ok cfg =>
    cases h2 : w.kubernetesNewForConfig cfg with
    | error e => simp [newResticServer, h1, h2] at h
    | ok kc =>
      cases h3 : w.clientsetNewForConfig cfg with
      | error e => simp [newResticServer, h1, h2, h3] at h
      | ok ac =>
        cases h4 : w.getBackupStorageLocation ac (Getenv p.env "HEPTIO_ARK_NAMESPACE")
            locationName with
        | error e => simp [newResticServer, h1, h2, h3, h4] at h
        | ok loc =>
          by_cases hp : loc.Spec.Provider = "azure"
          · cases h5 : (w.setResticEnvVars loc.Spec.Config p.env).2 with
            | some e => simp [newResticServer, h1, h2, h3, h4, hp, h5] at h
            | none =>
              simp [newResticServer, h1, h2, h3, h4, hp, h5, WithCancel] at h
              refine ⟨cfg, kc, ac, loc, (w.setResticEnvVars loc.Spec.Config p.env).1,
                rfl, h2, h3, h4, ?_, ?_, ?_, ?_, ?_, ?_⟩
              · intro _
                rw [← h5]
              · intro hn
                exact absurd hp hn
              · simp [newResticServer, h1, h2, h3, h4, hp, h5]
              · simp [newResticServer, h1, h2, h3, h4, hp, h5]
              · simp [newResticServer, h1, h2, h3, h4, hp, h5]
              · exact h.symm
          · simp [newResticServer, h1, h2, h3, h4, hp, WithCancel] at h
            refine ⟨cfg, kc, ac, loc, p.env, rfl, h2, h3, h4, ?_, ?_, ?_, ?_, ?_, ?_⟩
            · intro ha
              exact absurd ha hp
            · intro _
              rfl
            · simp [newResticServer, h1, h2, h3, h4, hp]
            · simp [newResticServer, h1, h2, h3, h4, hp]
            · simp [newResticServer, h1, h2, h3, h4, hp]
            · exact h.symm

/-- C2: for a provider other than `azure`, when client construction and the
storage-location lookup succeed, `newResticServer` returns a server and a nil
error, never calls `azure.SetResticEnvVars`, and leaves the process
environment as it found it. -/
theorem newResticServer_succeeds_without_provisioning (w : World) (p : Proc)
    (logger : FieldLogger) (baseName locationName : String)
    (cfg : RestConfig) (kc : KubeClient) (ac : ArkClient) (loc : BackupStorageLocation)
    (h1 : w.clientConfig "" "" baseName = .ok cfg)
    (h2 : w.kubernetesNewForConfig cfg = .ok kc)
    (h3 : w.clientsetNewForConfig cfg = .ok ac)
    (h4 : w.getBackupStorageLocation ac (Getenv p.env "HEPTIO_ARK_NAMESPACE") locationName
      = .ok loc)
    (hp : loc.Spec.Provider ≠ "azure") :
    (newResticServer w p logger baseName locationName).server.isSome = true ∧
    (newResticServer w p logger baseName locationName).err = none ∧
    (∀ c, Event.setResticEnvVars c ∉ (newResticServer w p logger baseName locationName).trace) ∧
    (newResticServer w p logger baseName locationName).proc.env = p.env := by
  simp [newResticServer, h1, h2, h3, h4, hp]

/-- Scenario A: provider `aws`, the location exists; startup succeeds and the
environment is untouched. -/
theorem newResticServer_succeeds_without_provisioning_witness :
    (newResticServer worldA sampleProc ⟨"info"⟩ "ark-server" "default").server.isSome = true ∧
    (newResticServer worldA sampleProc ⟨"info"⟩ "ark-server" "default").err = none ∧
    (∀ c, Event.setResticEnvVars c ∉
      (newResticServer worldA sampleProc ⟨"info"⟩ "ark-server" "default").trace) ∧
    (newResticServer worldA sampleProc ⟨"info"⟩ "ark-server" "default").proc.env =
      sampleProc.env :=
  newResticServer_succeeds_without_provisioning worldA sampleProc ⟨"info"⟩ "ark-server" "default"
    sampleConfig ⟨sampleConfig⟩ ⟨sampleConfig⟩ ⟨"heptio-ark", "default", ⟨"aws", []⟩⟩
    rfl rfl rfl rfl (by decide)

/-- Nothing that `newResticServer` does is a step of `run` or starts a task. -/
theorem newResticServer_trace_quiet (w : World) (p : Proc) (logger : FieldLogger)
    (baseName locationName : String) :
    ∀ e ∈ (newResticServer w p logger baseName locationName).trace,
      e.ofRun = false ∧ e.starts = false := by
  cases h1 : w.clientConfig "" "" baseName with
  | error e => simp [newResticServer, h1, Event.ofRun, Event.starts]
  | ok cfg =>
    cases h2 : w.kubernetesNewForConfig cfg with
    | error e => simp [newResticServer, h1, h2, Event.ofRun, Event.starts]
    | ok kc =>
      cases h3 : w.clientsetNewForConfig cfg with
      | error e => simp [newResticServer, h1, h2, h3, Event.ofRun, Event.starts]
      | ok ac =>
        cases h4 : w.getBackupStorageLocation ac (Getenv p.env "HEPTIO_ARK_NAMESPACE")
            locationName with
        | error e => simp [newResticServer, h1, h2, h3, h4, Event.ofRun, Event.starts]
        | ok loc =>
          by_cases hp : loc.Spec.Provider = "azure"
          · cases h5 : (w.setResticEnvVars loc.Spec.Config p.env).2 <;>
              simp [newResticServer, h1, h2, h3, h4, hp, h5, Event.ofRun, Event.starts]
          · simp [newResticServer, h1, h2, h3, h4, hp, Event.ofRun, Event.starts]

/-- An event that starts a task is an event of `run`. -/
theorem Event.ofRun_of_starts (e : Event) (h : e.starts = true) : e.ofRun = true := by
  cases e <;> first | rfl | simp [Event.starts] at h

/-- C3: in every execution of the server command, whatever `cmd.CheckError`
does, an event of `run` or of one of its goroutines (in particular the start
of a watch stream or of a reconciliation task) occurs only when
`newResticServer` returned no error, and then the storage-location lookup and,
for provider `azure`, the call of `azure.SetResticEnvVars` occur earlier in
the execution. -/
theorem provisioning_precedes_every_start (checkError : Option GoError → Bool)
    (w : World) (p : Proc)
    (logLevel gitSHA parentName name location : String) (sched : List Action)
    (tr : List Event) (i : Nat) (e : Event)
    (h : serverCommand checkError w p logLevel gitSHA parentName name location sched = some tr)
    (hi : tr[i]? = some e) (hs : e.starts = true ∨ e.ofRun = true) :
    (newResticServer w p ⟨logLevel⟩ (parentName ++ "-" ++ name) location).err = none ∧
    (∃ j, j < i ∧ tr[j]? = some
      (Event.getBackupStorageLocation (Getenv p.env "HEPTIO_ARK_NAMESPACE") location)) ∧
    (∀ cfg ac loc,
      w.clientConfig "" "" (parentName ++ "-" ++ name) = .ok cfg →
      w.clientsetNewForConfig cfg = .ok ac →
      w.getBackupStorageLocation ac (Getenv p.env "HEPTIO_ARK_NAMESPACE") location = .ok loc →
      loc.Spec.Provider = "azure" →
      ∃ k, k < i ∧ tr[k]? = some (Event.setResticEnvVars loc.Spec.Config)) := by
  have hrun : e.ofRun = true := by
    rcases hs with hs | hs
    · exact Event.ofRun_of_starts e hs
    · exact hs
  have hq := newResticServer_trace_quiet w p ⟨logLevel⟩ (parentName ++ "-" ++ name) location
  have hmem : e ∈ tr := List.getElem?_mem hi
  unfold serverCommand at h
  simp only at h
  split at h
  · -- the process exits at CheckError
    simp only [Option.some.injEq] at h
    subst h
    simp only [List.mem_append, List.mem_cons, List.mem_singleton, List.not_mem_nil,
      or_false] at hmem
    rcases hmem with (hm | hm) | hm
    · rcases hm with hm | hm <;> (subst hm; simp [Event.ofRun] at hrun)
    · have := (hq e hm).1
      simp [hrun] at this
    · subst hm
      simp [Event.ofRun] at hrun
  · split at h
    · simp only [Option.some.injEq] at h
      subst h
      simp only [List.mem_append, List.mem_cons, List.mem_singleton, List.not_mem_nil,
        or_false] at hmem
      rcases hmem with (hm | hm) | hm
      · rcases hm with hm | hm <;> (subst hm; simp [Event.ofRun] at hrun)
      · have := (hq e hm).1
        simp [hrun] at this
      · subst hm
        simp [Event.ofRun] at hrun
    · rename_i s hsrv
      obtain ⟨cfg, kc, ac, loc, env, h1, h2, h3, h4, h5, h6, herr, hproc, htr, hsv⟩ :=
        newResticServer_some w p ⟨logLevel⟩ (parentName ++ "-" ++ name) location s hsrv
      simp only [Option.map_eq_some'] at h
      obtain ⟨st, hst, htr'⟩ := h
      have hlt : ¬ i < ([Event.logInfo ("Setting log-level to " ++ logLevel.toUpper),
          Event.logInfo ("Starting Ark restic server " ++ gitSHA)] ++
          (newResticServer w p ⟨logLevel⟩ (parentName ++ "-" ++ name) location).trace).length := by
        intro hlt
        rw [← htr', List.getElem?_append_left hlt] at hi
        have hm := List.getElem?_mem hi
        simp only [List.mem_append, List.mem_cons, List.mem_singleton, List.not_mem_nil,
          or_false] at hm
        rcases hm with hm | hm
        · rcases hm with hm | hm <;> (subst hm; simp [Event.ofRun] at hrun)
        · have := (hq e hm).1
          simp [hrun] at this
      rw [htr] at hlt htr'
      refine ⟨herr, ⟨5, ?_, ?_⟩, ?_⟩
      · simp at hlt
        omega
      · rw [← htr']
        simp
      · intro cfg' ac' loc' g1 g3 g4 gp
        rw [h1] at g1
        cases g1
        rw [h3] at g3
        cases g3
        rw [h4] at g4
        cases g4
        refine ⟨6, ?_, ?_⟩
        · simp at hlt
          omega
        · rw [← htr']
          simp [gp]

/-- With provider `azure` and a complete configuration, the backup controller
starts at position 17 of the execution, after the lookup at position 5 and
the credential placement at position 6. -/
theorem provisioning_precedes_every_start_witness :
    (newResticServer worldD sampleProc ⟨"info"⟩ ("ark" ++ "-" ++ "server") "default").err = none ∧
    (∃ j, j < 17 ∧ traceFirstStart[j]? = some
      (Event.getBackupStorageLocation (Getenv sampleProc.env "HEPTIO_ARK_NAMESPACE") "default")) ∧
    (∀ cfg ac loc,
      worldD.clientConfig "" "" ("ark" ++ "-" ++ "server") = .ok cfg →
      worldD.clientsetNewForConfig cfg = .ok ac →
      worldD.getBackupStorageLocation ac (Getenv sampleProc.env "HEPTIO_ARK_NAMESPACE") "default"
        = .ok loc →
      loc.Spec.Provider = "azure" →
      ∃ k, k < 17 ∧ traceFirstStart[k]? = some (Event.setResticEnvVars loc.Spec.Config)) :=
  provisioning_precedes_every_start exitOnError worldD sampleProc "info" "abc123" "ark" "server" "default"
    schedFirstStart traceFirstStart 17 (Event.started Task.backupController)
    (by rfl) (by rfl) (Or.inl rfl)


/-- Cancellation is one-way: further cancel calls keep a cancelled context cancelled. -/
theorem Context.cancelledIn_mono (extra cancelled : List Nat) (ctx : Context)
    (h : ctx.cancelledIn cancelled = true) : ctx.cancelledIn (extra ++ cancelled) = true := by
  induction ctx with
  | background => simp [Context.cancelledIn] at h
  | cancelCtx parent id ih =>
    simp only [Context.cancelledIn, Bool.or_eq_true, List.contains_eq_any_beq, List.any_eq_true,
      beq_iff_eq, List.mem_append] at h ⊢
    rcases h with ⟨x, hx, rfl⟩ | h
    · exact Or.inl ⟨id, Or.inr hx, rfl⟩
    · exact Or.inr (ih h)

/-- The invariant holds when `run` is entered. -/
theorem RunInv.init (ctx : Context) : RunInv ctx RunState.init := by
  refine ⟨by simp [RunState.init], ?_, ?_, ?_, ?_⟩
  · intro t
    cases t <;> simp [taskOk, RunState.init, spawnIndex]
  · simp [RunState.init, exitedCount, addsBefore, RunState.phase]
  · simp [RunState.init]
  · simp [RunState.init]

/-- A step of the listener preserves the invariant. -/
theorem RunInv.cancel_step (ctx : Context) (st st' : RunState) (k : Nat) (hinv : RunInv ctx st)
    (h : stepCancel st k = some st') : RunInv ctx st' := by
  unfold stepCancel at h
  split at h
  · simp at h
  · rename_i cancel _
    simp only [Option.some.injEq] at h
    subst h
    obtain ⟨h1, h2, h3, h4, h5⟩ := hinv
    refine ⟨h1, h2, h3, ?_, h5⟩
    intro hpc
    exact Context.cancelledIn_mono [cancel.target] _ _ (h4 hpc)

/-- Moving a goroutine to another phase keeps every goroutine slot in order. -/
theorem taskOk_setPhase (st : RunState) (t : Task) (body : GoBody) (ph ph' : Phase)
    (wg' : Nat) (log' : List Event)
    (hg : st.gor t = some ⟨body, ph⟩) (h2 : ∀ t, taskOk st t) (t' : Task) :
    taskOk { st with wg := wg', gor := Function.update st.gor t (some ⟨body, ph'⟩),
                     log := log' } t' := by
  by_cases e : t' = t
  · subst e
    have h := h2 t'
    simp only [taskOk, hg, Option.some.injEq, forall_eq', reduceCtorEq, false_iff] at h
    simp only [taskOk, Function.update_same, Option.some.injEq, forall_eq', reduceCtorEq,
      false_iff]
    exact h
  · have h := h2 t'
    simp only [taskOk, Function.update_noteq e]
    exact h

/-- The phases after one goroutine has moved. -/
theorem phase_setPhase (st : RunState) (t t' : Task) (g : Goroutine)
    (wg' : Nat) (log' : List Event) :
    RunState.phase { st with wg := wg', gor := Function.update st.gor t (some g),
                             log := log' } t' =
      if t' = t then some g.phase else st.phase t' := by
  by_cases e : t' = t
  · subst e
    simp [RunState.phase]
  · simp [RunState.phase, Function.update_noteq e, e]

/-- A step of a task goroutine preserves the invariant. -/
theorem RunInv.task_step (ctx : Context) (st st' : RunState) (t : Task) (hinv : RunInv ctx st)
    (h : stepTask st t = some st') : RunInv ctx st' := by
  obtain ⟨h1, h2, h3, h4, h5⟩ := hinv
  unfold stepTask at h
  split at h
  · simp at h
  · rename_i g hg
    obtain ⟨body, phase⟩ := g
    have hph : st.phase t = some phase := by simp [RunState.phase, hg]
    have hdef := (h2 t).2 _ hg
    simp only at hdef
    cases phase with
    | exited => simp at h
    | ready =>
      simp only [Option.some.injEq] at h
      subst h
      refine ⟨h1, taskOk_setPhase st t body _ _ _ _ hg h2, ?_, h4, ?_⟩
      · simp only [exitedCount, phase_setPhase] at h3 ⊢
        rw [← h3]
        cases t <;> simp [hph]
      · intro h16
        have := h5 h16
        simp only [phase_setPhase]
        cases t <;> simp_all
    | running =>
      simp only [Option.some.injEq] at h
      subst h
      refine ⟨h1, taskOk_setPhase st t body _ _ _ _ hg h2, ?_, h4, ?_⟩
      · simp only [exitedCount, phase_setPhase] at h3 ⊢
        rw [← h3]
        cases t <;> simp [hph]
      · intro h16
        have := h5 h16
        simp only [phase_setPhase]
        cases t <;> simp_all
    | returned =>
      by_cases hd : body.deferWgDone = true
      · simp only [hd, if_true] at h
        split at h
        · simp at h
        · rename_i hwg
          simp only [Option.some.injEq] at h
          subst h
          refine ⟨h1, taskOk_setPhase st t body _ _ _ _ hg h2, ?_, h4, ?_⟩
          · simp only [exitedCount, phase_setPhase] at h3 ⊢
            rw [← h3]
            rw [hd] at hdef
            cases t <;> simp [Task.isController] at hdef <;> simp [hph] <;> omega
          · intro h16
            have := h5 h16
            simp only [phase_setPhase]
            cases t <;> simp_all
      · simp only [hd] at h
        simp only [Bool.false_eq_true, if_false, Option.some.injEq] at h
        subst h
        have hd' : body.deferWgDone = false := by simpa using hd
        refine ⟨h1, taskOk_setPhase st t body _ _ _ _ hg h2, ?_, h4, ?_⟩
        · simp only [exitedCount, phase_setPhase] at h3 ⊢
          rw [← h3]
          rw [hd'] at hdef
          cases t <;> simp [Task.isController] at hdef <;> simp [hph]
        · intro h16
          have := h5 h16
          simp only [phase_setPhase]
          rw [hd'] at hdef
          cases t <;> simp [Task.isController] at hdef <;> simp_all

/-- A statement of `run` preserves the invariant. -/
theorem RunInv.main_step (s : resticServer) (env : Env) (st st' : RunState)
    (hinv : RunInv s.ctx st) (h : step (run s env) st Action.main = some st') :
    RunInv s.ctx st' := by
  obtain ⟨pc, handlers, cancelled, wg, gor, log⟩ := st
  obtain ⟨h1, h2, h3, h4, h5⟩ := hinv
  simp only at h1
  have hb := h2 Task.backupController
  have hr := h2 Task.restoreController
  have ha := h2 Task.arkInformerFactory
  have hk := h2 Task.kubeInformerFactory
  have hp := h2 Task.podInformer
  have hs := h2 Task.secretInformer
  simp only [taskOk, spawnIndex, Task.isController] at hb hr ha hk hp hs
  simp only [exitedCount, addsBefore, RunState.phase] at h3 h5
  simp only [step] at h
  interval_cases pc
  all_goals simp only [Nat.reduceLeDiff, iff_true, iff_false, true_and] at hb hr ha hk hp hs
  all_goals
    obtain ⟨hb1, hb2⟩ := hb
    obtain ⟨hr1, hr2⟩ := hr
    obtain ⟨ha1, ha2⟩ := ha
    obtain ⟨hk1, hk2⟩ := hk
    obtain ⟨hp1, hp2⟩ := hp
    obtain ⟨hs1, hs2⟩ := hs
    simp [run, stepMain, hb1, hr1, ha1, hk1, hp1, hs1, Context.Done, TaskCall.task] at h
  all_goals
    first
      | subst h
      | (obtain ⟨hcond, h⟩ := h
         subst h)
    refine ⟨by simp, ?_, ?_, ?_, ?_⟩
    · intro t
      cases t <;>
        simp [taskOk, spawnIndex, Task.isController, Function.update_apply, hb1, hr1, ha1, hk1,
          hp1, hs1] <;> assumption
    · simp only [exitedCount, addsBefore, RunState.phase, Function.update_apply] at h3 ⊢
      simp at h3 ⊢
      first
        | exact h3
        | omega
        | (split_ifs at h3 ⊢ <;> simp_all)
    · first
        | (intro h14
           simp at h14
           done)
        | (intro _
           exact hcond)
        | (intro _
           exact h4 (by simp))
    · first
        | (intro h16
           simp at h16
           done)
        | (intro _
           simp only [RunState.phase]
           subst hcond
           simp at h3
           split_ifs at h3 <;> simp_all)


/-- A schedule preserves the invariant. -/
theorem RunInv.exec_preserves (s : resticServer) (env : Env) (sched : List Action) :
    ∀ (st0 st : RunState), RunInv s.ctx st0 → exec (run s env) st0 sched = some st →
      RunInv s.ctx st := by
  induction sched with
  | nil =>
    intro st0 st hinv h
    simp only [exec, Option.some.injEq] at h
    subst h
    exact hinv
  | cons a rest ih =>
    intro st0 st hinv h
    simp only [exec] at h
    split at h
    · simp at h
    · rename_i st1 hstep
      refine ih st1 st ?_ h
      cases a with
      | main => exact RunInv.main_step s env st0 st1 hinv hstep
      | task t => exact RunInv.task_step s.ctx st0 st1 t hinv hstep
      | cancel k => exact RunInv.cancel_step s.ctx st0 st1 k hinv hstep

/-- Every state that `run` reaches satisfies the invariant. -/
theorem RunInv.reachable (s : resticServer) (env : Env) (sched : List Action) (st : RunState)
    (h : exec (run s env) RunState.init sched = some st) : RunInv s.ctx st :=
  RunInv.exec_preserves s env sched RunState.init st (RunInv.init s.ctx) h

/-- C6: `run` returns only after the context `s.ctx` has been cancelled and
both `backupController.Run` and `restoreController.Run` have returned: in
every state in which the main goroutine is past `wg.Wait()`, the context is
cancelled, both calls are finished and neither is in progress. -/
theorem run_returns_only_after_cancel_and_join (s : resticServer) (env : Env)
    (sched : List Action) (st : RunState)
    (h : exec (run s env) RunState.init sched = some st)
    (hret : st.mainReturned (run s env) = true) :
    s.ctx.cancelledIn st.cancelled = true ∧
    st.finished Task.backupController = true ∧
    st.finished Task.restoreController = true ∧
    st.inProgress Task.backupController = false ∧
    st.inProgress Task.restoreController = false := by
  have hinv := RunInv.reachable s env sched st h
  have hpc : 16 ≤ st.pc := by
    simpa [RunState.mainReturned, run] using hret
  obtain ⟨hb, hr⟩ := hinv.joined hpc
  refine ⟨hinv.cancelled (by omega), ?_, ?_, ?_, ?_⟩ <;>
    simp [RunState.finished, RunState.inProgress, hb, hr]


/-- After a graceful shutdown `run` has returned: the context is cancelled and
both controllers are finished. -/
theorem run_returns_only_after_cancel_and_join_witness :
    serverA.ctx.cancelledIn stateGraceful.cancelled = true ∧
    stateGraceful.finished Task.backupController = true ∧
    stateGraceful.finished Task.restoreController = true ∧
    stateGraceful.inProgress Task.backupController = false ∧
    stateGraceful.inProgress Task.restoreController = false :=
  run_returns_only_after_cancel_and_join serverA sampleProc.env schedGraceful stateGraceful
    (by rfl) (by rfl)

/-- While the context is live the receive on the done channel is blocked, also
when both controllers have already finished: the schedule is enabled up to its
last step, both controllers are finished there, and the last step, the main
goroutine at its receive, is not enabled. -/
theorem run_blocked_while_token_live :
    ((exec (run serverA sampleProc.env) RunState.init schedEarlyFinish.dropLast).map
      (fun st => (st.pc, st.finished Task.backupController,
        st.finished Task.restoreController, st.wg,
        serverA.ctx.cancelledIn st.cancelled))) = some (13, true, true, 0, false) ∧
    exec (run serverA sampleProc.env) RunState.init schedEarlyFinish = none := by
  constructor <;> rfl


/-- The statements of `run`: sixteen of them. -/
theorem run_length (s : resticServer) (env : Env) : (run s env).length = 16 := by
  simp [run]

/-- C7, as the code has it: in `run` every `go` statement of a reconciliation
loop wraps the call with `defer wg.Done()` and comes right after `wg.Add(1)`,
while the `go` statements of the four watch-stream synchronizers have no
`wg.Done()` and no `wg.Add`; the counter is positive as long as a
reconciliation loop has not ended; and once `run` has returned both
reconciliation loops are finished. -/
theorem controllers_registered_and_joined (s : resticServer) (env : Env)
    (sched : List Action) (st : RunState)
    (h : exec (run s env) RunState.init sched = some st) :
    (∀ i body, (run s env)[i]? = some (Stmt.go body) →
      (body.call.task.isController = true →
        body.deferWgDone = true ∧ ∃ j, j + 1 = i ∧ (run s env)[j]? = some (Stmt.wgAdd 1)) ∧
      (body.call.task.isController = false → body.deferWgDone = false)) ∧
    ((run s env).countP (fun stmt => match stmt with | Stmt.wgAdd _ => true | _ => false) = 2) ∧
    (∀ t ph, t.isController = true → st.phase t = some ph → ph ≠ Phase.exited → 0 < st.wg) ∧
    (st.mainReturned (run s env) = true →
      ∀ t, t.isController = true → st.finished t = true) := by
  have hinv := RunInv.reachable s env sched st h
  refine ⟨?_, ?_, ?_, ?_⟩
  · intro i body hi
    have hlt : i < 16 := by
      obtain ⟨hlt, _⟩ := List.getElem?_eq_some_iff.1 hi
      simpa [run] using hlt
    interval_cases i <;> simp [run] at hi <;> subst hi <;>
      simp [TaskCall.task, Task.isController, run]
  · simp [run, List.countP_cons]
  · intro t ph ht hph hne
    have hcnt := hinv.counter
    have hb := (hinv.tasks Task.backupController).1
    have hr := (hinv.tasks Task.restoreController).1
    simp only [exitedCount, addsBefore, spawnIndex] at hcnt hb hr
    have hbn : st.gor Task.backupController = none ↔ st.phase Task.backupController = none := by
      simp [RunState.phase]
    have hrn : st.gor Task.restoreController = none ↔ st.phase Task.restoreController = none := by
      simp [RunState.phase]
    rw [hbn] at hb
    rw [hrn] at hr
    cases t <;> simp [Task.isController] at ht
    · rw [hph] at hb hcnt
      have h5 : ¬ st.pc ≤ 4 := by
        intro hle
        have := hb.2 hle
        simp at this
      have hx : (if some ph = some Phase.exited then 1 else 0) = 0 := by simp [hne]
      rw [hx] at hcnt
      by_cases hre : st.phase Task.restoreController = some Phase.exited
      · have h8 : ¬ st.pc ≤ 7 := by
          intro hle
          have := hr.2 hle
          rw [hre] at this
          simp at this
        simp only [hre, if_true] at hcnt
        have e1 : (if 4 ≤ st.pc then 1 else 0) = 1 := by simp; omega
        have e2 : (if 7 ≤ st.pc then 1 else 0) = 1 := by simp; omega
        rw [e1, e2] at hcnt
        omega
      · simp only [hre, if_false] at hcnt
        have e1 : (if 4 ≤ st.pc then 1 else 0) = 1 := by simp; omega
        rw [e1] at hcnt
        omega
    · rw [hph] at hr hcnt
      have h8 : ¬ st.pc ≤ 7 := by
        intro hle
        have := hr.2 hle
        simp at this
      have hx : (if some ph = some Phase.exited then 1 else 0) = 0 := by simp [hne]
      rw [hx] at hcnt
      have e1 : (if 4 ≤ st.pc then 1 else 0) = 1 := by simp; omega
      have e2 : (if 7 ≤ st.pc then 1 else 0) = 1 := by simp; omega
      rw [e1, e2] at hcnt
      split_ifs at hcnt <;> omega
  · intro hret t ht
    have hpc : 16 ≤ st.pc := by
      simpa [RunState.mainReturned, run] using hret
    obtain ⟨hb, hr⟩ := hinv.joined hpc
    cases t <;> simp [Task.isController] at ht <;> simp [RunState.finished, hb, hr]

/-- In the shutdown where the pod informer lags behind, the two controllers
are finished when `run` has returned. -/
theorem controllers_registered_and_joined_witness :
    (∀ i body, (run serverA sampleProc.env)[i]? = some (Stmt.go body) →
      (body.call.task.isController = true →
        body.deferWgDone = true ∧
          ∃ j, j + 1 = i ∧ (run serverA sampleProc.env)[j]? = some (Stmt.wgAdd 1)) ∧
      (body.call.task.isController = false → body.deferWgDone = false)) ∧
    ((run serverA sampleProc.env).countP
      (fun stmt => match stmt with | Stmt.wgAdd _ => true | _ => false) = 2) ∧
    (∀ t ph, t.isController = true → stateInformerBehind.phase t = some ph →
      ph ≠ Phase.exited → 0 < stateInformerBehind.wg) ∧
    (stateInformerBehind.mainReturned (run serverA sampleProc.env) = true →
      ∀ t, t.isController = true → stateInformerBehind.finished t = true) :=
  controllers_registered_and_joined serverA sampleProc.env schedInformerBehind
    stateInformerBehind (by rfl)

/-- C7 fails as stated: there is an execution in which `run` has returned
while `podInformer.Run`, started earlier, is still in progress; of the six
tasks started only two were preceded by `wg.Add`. -/
theorem synchronizers_not_joined :
    exec (run serverA sampleProc.env) RunState.init schedInformerBehind
      = some stateInformerBehind ∧
    stateInformerBehind.mainReturned (run serverA sampleProc.env) = true ∧
    Event.started Task.podInformer ∈ stateInformerBehind.log ∧
    stateInformerBehind.inProgress Task.podInformer = true ∧
    stateInformerBehind.finished Task.podInformer = false ∧
    stateInformerBehind.log.count (Event.wgAdd 1) = 2 ∧
    (stateInformerBehind.log.filter
      (fun e => match e with | Event.goStmt _ => true | _ => false)).length = 6 := by
  refine ⟨by rfl, by rfl, by decide, by rfl, by rfl, by decide, by decide⟩


/-- No step of `run` or of its goroutines creates a context. -/
theorem step_log_no_withCancel (prog : List Stmt) (st st' : RunState) (a : Action)
    (h : step prog st a = some st') (h0 : st.log.countP Event.isWithCancel = 0) :
    st'.log.countP Event.isWithCancel = 0 := by
  cases a with
  | main =>
    simp only [step] at h
    split at h
    · simp at h
    · rename_i stmt _
      cases stmt <;> simp only [stepMain] at h
      case go body =>
        split at h
        · simp at h
        · simp only [Option.some.injEq] at h
          subst h
          simp [List.countP_append, h0, Event.isWithCancel]
      case recvDone ch =>
        split at h
        · simp only [Option.some.injEq] at h
          subst h
          simp [List.countP_append, h0, Event.isWithCancel]
        · simp at h
      case wgWait =>
        split at h
        · simp only [Option.some.injEq] at h
          subst h
          simp [List.countP_append, h0, Event.isWithCancel]
        · simp at h
      all_goals
        simp only [Option.some.injEq] at h
        subst h
        simp [List.countP_append, h0, Event.isWithCancel]
  | task t =>
    simp only [step, stepTask] at h
    split at h
    · simp at h
    · split at h
      · simp only [Option.some.injEq] at h
        subst h
        simp [List.countP_append, h0, Event.isWithCancel]
      · simp only [Option.some.injEq] at h
        subst h
        simp [List.countP_append, h0, Event.isWithCancel]
      · split at h
        · split at h
          · simp at h
          · simp only [Option.some.injEq] at h
            subst h
            simp [List.countP_append, h0, Event.isWithCancel]
        · simp only [Option.some.injEq] at h
          subst h
          simp [h0]
      · simp at h
  | cancel k =>
    simp only [step, stepCancel] at h
    split at h
    · simp at h
    · simp only [Option.some.injEq] at h
      subst h
      simp [List.countP_append, h0, Event.isWithCancel]

/-- No schedule of `run` creates a context. -/
theorem exec_log_no_withCancel (prog : List Stmt) (sched : List Action) :
    ∀ (st0 st : RunState), exec prog st0 sched = some st →
      st0.log.countP Event.isWithCancel = 0 → st.log.countP Event.isWithCancel = 0 := by
  induction sched with
  | nil =>
    intro st0 st h h0
    simp only [exec, Option.some.injEq] at h
    subst h
    exact h0
  | cons a rest ih =>
    intro st0 st h h0
    simp only [exec] at h
    split at h
    · simp at h
    · rename_i st1 hstep
      exact ih st1 st h (step_log_no_withCancel prog st0 st1 a hstep h0)

/-- The first statement of `run` hands `s.cancelFunc` to the listener, and no
later statement calls `signals.CancelOnShutdown`. -/
theorem run_stmt_at (s : resticServer) (env : Env) (pc : Nat) (stmt : Stmt)
    (h : (run s env)[pc]? = some stmt) :
    (pc = 0 ∧ stmt = Stmt.cancelOnShutdown s.cancelFunc s.logger) ∨
    (0 < pc ∧ ∀ c l, stmt ≠ Stmt.cancelOnShutdown c l) := by
  have hlt : pc < 16 := by
    obtain ⟨hlt, _⟩ := List.getElem?_eq_some_iff.1 h
    simpa [run] using hlt
  interval_cases pc <;> simp [run] at h <;> subst h <;> simp

/-- Every step of `run` keeps the listener as it should be. -/
theorem ListenerInv.kept_by_step (s : resticServer) (env : Env) (st st' : RunState)
    (a : Action) (hinv : ListenerInv s.cancelFunc st)
    (h : step (run s env) st a = some st') : ListenerInv s.cancelFunc st' := by
  obtain ⟨hh, hc⟩ := hinv
  cases a with
  | main =>
    simp only [step] at h
    split at h
    · simp at h
    · rename_i stmt hstmt
      rcases run_stmt_at s env st.pc stmt hstmt with ⟨hpc, hs⟩ | ⟨hpc, hs⟩
      · subst hs
        simp only [stepMain, Option.some.injEq] at h
        subst h
        simp only [hpc, if_true] at hh
        exact ⟨by simp [hh], hc⟩
      · have hne : st.pc ≠ 0 := by omega
        simp only [hne, if_false] at hh
        cases stmt with
        | cancelOnShutdown c l => exact absurd rfl (hs c l)
        | logInfo l m =>
          simp only [stepMain, Option.some.injEq] at h
          subst h
          exact ⟨by simp [hh], hc⟩
        | newPodVolumeBackupController args =>
          simp only [stepMain, Option.some.injEq] at h
          subst h
          exact ⟨by simp [hh], hc⟩
        | newPodVolumeRestoreController args =>
          simp only [stepMain, Option.some.injEq] at h
          subst h
          exact ⟨by simp [hh], hc⟩
        | wgAdd d =>
          simp only [stepMain, Option.some.injEq] at h
          subst h
          exact ⟨by simp [hh], hc⟩
        | go body =>
          simp only [stepMain] at h
          split at h
          · simp at h
          · simp only [Option.some.injEq] at h
            subst h
            exact ⟨by simp [hh], hc⟩
        | recvDone ch =>
          simp only [stepMain] at h
          split at h
          · simp only [Option.some.injEq] at h
            subst h
            exact ⟨by simp [hh], hc⟩
          · simp at h
        | wgWait =>
          simp only [stepMain] at h
          split at h
          · simp only [Option.some.injEq] at h
            subst h
            exact ⟨by simp [hh], hc⟩
          · simp at h
  | task t =>
    simp only [step, stepTask] at h
    split at h
    · simp at h
    · split at h
      · simp only [Option.some.injEq] at h
        subst h
        exact ⟨hh, hc⟩
      · simp only [Option.some.injEq] at h
        subst h
        exact ⟨hh, hc⟩
      · split at h
        · split at h
          · simp at h
          · simp only [Option.some.injEq] at h
            subst h
            exact ⟨hh, hc⟩
        · simp only [Option.some.injEq] at h
          subst h
          exact ⟨hh, hc⟩
      · simp at h
  | cancel k =>
    simp only [step, stepCancel] at h
    split at h
    · simp at h
    · rename_i c hk
      simp only [Option.some.injEq] at h
      subst h
      have hmem : c ∈ st.handlers := List.getElem?_mem hk
      have hceq : c = s.cancelFunc := by
        rw [hh] at hmem
        split at hmem
        · simp at hmem
        · simpa using hmem
      refine ⟨hh, ?_⟩
      intro id hid
      simp only [List.mem_cons] at hid
      rcases hid with hid | hid
      · rw [hid, hceq]
      · exact hc id hid

/-- Every schedule of `run` keeps the listener as it should be. -/
theorem ListenerInv.holds_throughout (s : resticServer) (env : Env) (sched : List Action) :
    ∀ (st0 st : RunState), ListenerInv s.cancelFunc st0 →
      exec (run s env) st0 sched = some st → ListenerInv s.cancelFunc st := by
  induction sched with
  | nil =>
    intro st0 st hinv h
    simp only [exec, Option.some.injEq] at h
    subst h
    exact hinv
  | cons a rest ih =>
    intro st0 st hinv h
    simp only [exec] at h
    split at h
    · simp at h
    · rename_i st1 hstep
      exact ih st1 st (ListenerInv.kept_by_step s env st0 st1 a hinv hstep) h

/-- C8: a server returned by `newResticServer` was built with exactly one call
of `context.WithCancel`, which gave it its context and the cancel function
paired with it; the first statement of `run` hands that cancel function to
the shutdown-signal listener and no other statement hands it anything, so
that in every execution the listener holds `s.cancelFunc` alone from then on,
each of its calls cancels `s.ctx`, and no other context is ever cancelled;
`run` runs both controllers with `s.ctx` and all four watch-stream
synchronizers with `s.ctx.Done()`, so every task observes the context `s.ctx`;
and no step of `run` or of its goroutines creates another context. -/
theorem single_shared_token (w : World) (p : Proc) (logger : FieldLogger)
    (baseName locationName : String) (s : resticServer) (env : Env)
    (h : (newResticServer w p logger baseName locationName).server = some s) :
    (newResticServer w p logger baseName locationName).trace.countP Event.isWithCancel = 1 ∧
    (newResticServer w p logger baseName locationName).proc.nextCtx = p.nextCtx + 1 ∧
    (s.ctx, s.cancelFunc) = WithCancel Context.background p.nextCtx ∧
    s.ctx = Context.cancelCtx Context.background s.cancelFunc.target ∧
    (run s env)[0]? = some (Stmt.cancelOnShutdown s.cancelFunc s.logger) ∧
    (∀ c l, Stmt.cancelOnShutdown c l ∈ run s env → c = s.cancelFunc) ∧
    (∀ body, Stmt.go body ∈ run s env →
      body.call.token = s.ctx ∧
      (body.call.task.isController = true →
        body.call = TaskCall.controllerRun body.call.task s.ctx 1) ∧
      (body.call.task.isController = false →
        body.call = TaskCall.informerRun body.call.task s.ctx.Done)) ∧
    (∀ t, ∃ body, Stmt.go body ∈ run s env ∧ body.call.task = t) ∧
    (∀ sched st, exec (run s env) RunState.init sched = some st →
      st.log.countP Event.isWithCancel = 0) ∧
    (∀ sched st, exec (run s env) RunState.init sched = some st →
      st.handlers = (if st.pc = 0 then [] else [s.cancelFunc]) ∧
      (∀ id ∈ st.cancelled, id = s.cancelFunc.target) ∧
      (∀ k st', step (run s env) st (Action.cancel k) = some st' →
        s.ctx.cancelledIn st'.cancelled = true)) := by
  obtain ⟨cfg, kc, ac, loc, env1, h1, h2, h3, h4, h5, h6, herr, hproc, htr, hsv⟩ :=
    newResticServer_some w p logger baseName locationName s h
  refine ⟨?_, ?_, ?_, ?_, ?_, ?_, ?_, ?_, ?_, ?_⟩
  · rw [htr]
    by_cases hp : loc.Spec.Provider = "azure" <;>
      simp [hp, List.countP_cons, Event.isWithCancel]
  · rw [hproc]
  · rw [hsv]
    rfl
  · rw [hsv]
  · simp [run]
  · intro c l hmem
    simp [run] at hmem
    exact hmem.1
  · intro body hmem
    simp [run] at hmem
    rcases hmem with hm | hm | hm | hm | hm | hm <;> subst hm <;>
      simp [TaskCall.token, TaskCall.task, Task.isController, Context.Done]
  · intro t
    cases t
    · exact ⟨⟨true, TaskCall.controllerRun Task.backupController s.ctx 1⟩, by simp [run], rfl⟩
    · exact ⟨⟨true, TaskCall.controllerRun Task.restoreController s.ctx 1⟩, by simp [run], rfl⟩
    · exact ⟨⟨false, TaskCall.informerRun Task.arkInformerFactory s.ctx.Done⟩,
        by simp [run], rfl⟩
    · exact ⟨⟨false, TaskCall.informerRun Task.kubeInformerFactory s.ctx.Done⟩,
        by simp [run], rfl⟩
    · exact ⟨⟨false, TaskCall.informerRun Task.podInformer s.ctx.Done⟩, by simp [run], rfl⟩
    · exact ⟨⟨false, TaskCall.informerRun Task.secretInformer s.ctx.Done⟩, by simp [run], rfl⟩
  · intro sched st hex
    exact exec_log_no_withCancel _ sched RunState.init st hex (by simp [RunState.init])
  · intro sched st hex
    have hl := ListenerInv.holds_throughout s env sched RunState.init st
      ⟨by simp [RunState.init], by simp [RunState.init]⟩ hex
    refine ⟨hl.1, hl.2, ?_⟩
    intro k st' hstep
    simp only [step, stepCancel] at hstep
    split at hstep
    · simp at hstep
    · rename_i c hk
      simp only [Option.some.injEq] at hstep
      subst hstep
      have hmem : c ∈ st.handlers := List.getElem?_mem hk
      have hceq : c = s.cancelFunc := by
        rw [hl.1] at hmem
        split at hmem
        · simp at hmem
        · simpa using hmem
      rw [hsv, hceq, hsv]
      simp [Context.cancelledIn]

/-- The server of scenario A has the one context created at startup, and all
six tasks of `run` observe it. -/
theorem single_shared_token_witness :
    (newResticServer worldA sampleProc ⟨"info"⟩ "ark-server" "default").trace.countP
      Event.isWithCancel = 1 ∧
    (newResticServer worldA sampleProc ⟨"info"⟩ "ark-server" "default").proc.nextCtx =
      sampleProc.nextCtx + 1 ∧
    (serverA.ctx, serverA.cancelFunc) = WithCancel Context.background sampleProc.nextCtx ∧
    serverA.ctx = Context.cancelCtx Context.background serverA.cancelFunc.target ∧
    (run serverA sampleProc.env)[0]? =
      some (Stmt.cancelOnShutdown serverA.cancelFunc serverA.logger) ∧
    (∀ c l, Stmt.cancelOnShutdown c l ∈ run serverA sampleProc.env → c = serverA.cancelFunc) ∧
    (∀ body, Stmt.go body ∈ run serverA sampleProc.env →
      body.call.token = serverA.ctx ∧
      (body.call.task.isController = true →
        body.call = TaskCall.controllerRun body.call.task serverA.ctx 1) ∧
      (body.call.task.isController = false →
        body.call = TaskCall.informerRun body.call.task serverA.ctx.Done)) ∧
    (∀ t, ∃ body, Stmt.go body ∈ run serverA sampleProc.env ∧ body.call.task = t) ∧
    (∀ sched st, exec (run serverA sampleProc.env) RunState.init sched = some st →
      st.log.countP Event.isWithCancel = 0) ∧
    (∀ sched st, exec (run serverA sampleProc.env) RunState.init sched = some st →
      st.handlers = (if st.pc = 0 then [] else [serverA.cancelFunc]) ∧
      (∀ id ∈ st.cancelled, id = serverA.cancelFunc.target) ∧
      (∀ k st', step (run serverA sampleProc.env) st (Action.cancel k) = some st' →
        serverA.ctx.cancelledIn st'.cancelled = true)) :=
  single_shared_token worldA sampleProc ⟨"info"⟩ "ark-server" "default" serverA sampleProc.env
    (by rfl)


/-- A selector without comma and backslash is one term. -/
theorem splitTermsAux_plain (xs : List Char) (h : ∀ c ∈ xs, c ≠ ',' ∧ c ≠ '\\') :
    splitTermsAux false xs = [xs] := by
  induction xs with
  | nil => rfl
  | cons c cs ih =>
    have hc := h c (List.mem_cons_self c cs)
    have hcs : ∀ d ∈ cs, d ≠ ',' ∧ d ≠ '\\' := fun d hd => h d (List.mem_cons_of_mem c hd)
    have hb : (c == '\\') = false := by simpa using hc.2
    simp only [splitTermsAux, Bool.false_eq_true, if_false, hc.1, hb, ih hcs]

/-- A value without special characters has nothing to unescape. -/
theorem unescapeValue_plain (v : List Char) (h : ∀ c ∈ v, specialChar c = false) :
    unescapeValue v = some v := by
  induction v with
  | nil => rfl
  | cons c cs ih =>
    have hc := h c (List.mem_cons_self c cs)
    have hcs : ∀ d ∈ cs, specialChar d = false := fun d hd => h d (List.mem_cons_of_mem c hd)
    have hne : c ≠ '\\' := by
      intro e
      rw [e] at hc
      simp [specialChar] at hc
    cases cs with
    | nil => simp [unescapeValue, hc]
    | cons d rest =>
      simp only [unescapeValue, hne, if_false, hc, Bool.false_eq_true, ih hcs, Option.map_some']

/-- The part of a term before its first equals sign. -/
theorem takeWhile_before_eq (k v : List Char) (hk : ∀ c ∈ k, c ≠ '=') :
    (k ++ '=' :: v).takeWhile (fun c => c != '=') = k := by
  induction k with
  | nil => simp
  | cons c cs ih =>
    have hc := hk c (List.mem_cons_self c cs)
    have hcs : ∀ d ∈ cs, d ≠ '=' := fun d hd => hk d (List.mem_cons_of_mem c hd)
    simp [List.takeWhile_cons, hc, ih hcs]

/-- The part of a term from its first equals sign on. -/
theorem dropWhile_before_eq (k v : List Char) (hk : ∀ c ∈ k, c ≠ '=') :
    (k ++ '=' :: v).dropWhile (fun c => c != '=') = '=' :: v := by
  induction k with
  | nil => simp
  | cons c cs ih =>
    have hc := hk c (List.mem_cons_self c cs)
    have hcs : ∀ d ∈ cs, d ≠ '=' := fun d hd => hk d (List.mem_cons_of_mem c hd)
    simp [List.dropWhile_cons, hc, ih hcs]

/-- A term `field=value` with a plain value is read as that requirement. -/
theorem parseTerm_plain (k v : List Char) (hk : ∀ c ∈ k, c ≠ '=')
    (hlast : k.getLast? ≠ some '!') (hv : ∀ c ∈ v, specialChar c = false) :
    parseTerm (k ++ '=' :: v) = some ⟨k, false, v⟩ := by
  unfold parseTerm
  rw [dropWhile_before_eq k v hk]
  simp only [takeWhile_before_eq k v hk, hlast, if_false]
  cases v with
  | nil => rfl
  | cons d rest =>
    have hd : d ≠ '=' := by
      intro e
      have := hv d (List.mem_cons_self d rest)
      rw [e] at this
      simp [specialChar] at this
    simp only [hd, if_false, unescapeValue_plain (d :: rest) hv, Option.map_some']

/-- A selector `field=value` with a plain value is read as that one requirement. -/
theorem parseSelector_plain (s : String) (k v : List Char) (hs : s.data = k ++ '=' :: v)
    (hk : ∀ c ∈ k, specialChar c = false)
    (hlast : k.getLast? ≠ some '!') (hv : ∀ c ∈ v, specialChar c = false) :
    parseSelector s = some [⟨k, false, v⟩] := by
  have hsp : ∀ c, specialChar c = false → c ≠ ',' ∧ c ≠ '=' ∧ c ≠ '\\' := by
    intro c hc
    simp only [specialChar, Bool.or_eq_false_iff, beq_eq_false_iff_ne] at hc
    exact ⟨hc.1.1, hc.1.2, hc.2⟩
  have hsplit : splitTermsAux false (k ++ '=' :: v) = [k ++ '=' :: v] := by
    apply splitTermsAux_plain
    intro c hc
    simp only [List.mem_append, List.mem_cons] at hc
    rcases hc with hc | hc | hc
    · exact ⟨(hsp c (hk c hc)).1, (hsp c (hk c hc)).2.2⟩
    · subst hc
      exact ⟨by decide, by decide⟩
    · exact ⟨(hsp c (hv c hc)).1, (hsp c (hv c hc)).2.2⟩
  have hne : (k ++ '=' :: v).isEmpty = false := by
    cases k <;> rfl
  simp only [parseSelector, splitTerms, hs, hsplit, List.filter_cons, hne, Bool.not_false,
    if_true, List.filter_nil, List.mapM_cons, List.mapM_nil,
    parseTerm_plain k v (fun c hc => (hsp c (hk c hc)).2.1) hlast hv]
  rfl

/-- The characters of a plain value. -/
theorem plainValue_data (v : String) (h : PlainValue v = true) :
    ∀ c ∈ v.data, specialChar c = false := by
  intro c hc
  simp only [PlainValue, List.all_eq_true, Bool.not_eq_true'] at h
  exact h c hc

/-- The Kubernetes reading honours field selectors. -/
theorem kubeServer_honours (pods : List Pod) (secrets : List Secret) :
    (kubeServer pods secrets).HonoursFieldSelectors := by
  intro v hv
  have hvd := plainValue_data v hv
  constructor
  · intro ns opts x _ hsel
    have hp : parseSelector opts.FieldSelector =
        some [⟨"spec.nodeName".data, false, v.data⟩] := by
      apply parseSelector_plain _ _ _ _ (by decide) (by decide) hvd
      rw [hsel]
      rfl
    simp only [kubeServer, hp, List.mem_filter, Bool.and_eq_true, List.all_cons, List.all_nil,
      Bool.and_true, Requirement.holds, Pod.field, if_true, Bool.false_eq_true, if_false,
      beq_iff_eq]
    constructor
    · rintro ⟨hx, hscope, heq⟩
      exact ⟨hx, hscope, String.ext heq⟩
    · rintro ⟨hx, hscope, heq⟩
      exact ⟨hx, hscope, by rw [heq]⟩
  · intro ns opts x _ hsel
    have hp : parseSelector opts.FieldSelector =
        some [⟨"metadata.name".data, false, v.data⟩] := by
      apply parseSelector_plain _ _ _ _ (by decide) (by decide) hvd
      rw [hsel]
      rfl
    simp only [kubeServer, hp, List.mem_filter, Bool.and_eq_true, List.all_cons, List.all_nil,
      Bool.and_true, Requirement.holds, Secret.field, if_true, Bool.false_eq_true, if_false,
      beq_iff_eq]
    constructor
    · rintro ⟨hx, hscope, heq⟩
      exact ⟨hx, hscope, String.ext heq⟩
    · rintro ⟨hx, hscope, heq⟩
      exact ⟨hx, hscope, by rw [heq]⟩

/-- Either some startup step fails or `newResticServer` returns a server. -/
theorem newResticServer_ok_of_not_fails (w : World) (p : Proc) (logger : FieldLogger)
    (baseName locationName : String) (h : ¬ StartupFails w p baseName locationName) :
    (newResticServer w p logger baseName locationName).server.isSome = true := by
  cases h1 : w.clientConfig "" "" baseName with
  | error e => exact absurd (StartupFails.clientConfig e h1) h
  | ok cfg =>
    cases h2 : w.kubernetesNewForConfig cfg with
    | error e => exact absurd (StartupFails.kubernetesNewForConfig cfg e h1 h2) h
    | ok kc =>
      cases h3 : w.clientsetNewForConfig cfg with
      | error e => exact absurd (StartupFails.clientsetNewForConfig cfg kc e h1 h2 h3) h
      | ok ac =>
        cases h4 : w.getBackupStorageLocation ac (Getenv p.env "HEPTIO_ARK_NAMESPACE")
            locationName with
        | error e => exact absurd (StartupFails.getLocation cfg kc ac e h1 h2 h3 h4) h
        | ok loc =>
          by_cases hp : loc.Spec.Provider = "azure"
          · cases h5 : (w.setResticEnvVars loc.Spec.Config p.env).2 with
            | some e =>
              exact absurd (StartupFails.setResticEnvVars cfg kc ac loc e h1 h2 h3 h4 hp h5) h
            | none => simp [newResticServer, h1, h2, h3, h4, hp, h5]
          · simp [newResticServer, h1, h2, h3, h4, hp]

/-- C4: the pod informer built by `newResticServer` spans all namespaces and
its tweak function sets the field selector to `spec.nodeName=` followed by the
value of `NODE_NAME` at that moment, leaving the other list options alone;
with the variable unset the selector is `spec.nodeName=` and startup fails
only when one of its five steps fails; against a server that honours field
selectors, and for a value of `NODE_NAME` without comma, equals sign and
backslash (the empty value included), the pod cache holds exactly the pods
whose `spec.nodeName` is that value. -/
theorem pod_stream_filters_on_node_name (w : World) (p : Proc) (logger : FieldLogger)
    (baseName locationName : String) :
    (¬ StartupFails w p baseName locationName →
      (newResticServer w p logger baseName locationName).server.isSome = true) ∧
    (∀ s, (newResticServer w p logger baseName locationName).server = some s →
      s.podInformer.resource = Resource.pods ∧
      s.podInformer.ns = NamespaceAll ∧
      (∀ env opts, s.podInformer.tweakListOptions env opts =
        { opts with FieldSelector := "spec.nodeName=" ++ Getenv env "NODE_NAME" }) ∧
      (∀ env : Env, env.lookup "NODE_NAME" = none →
        (s.podInformer.listOptions env).FieldSelector = "spec.nodeName=") ∧
      (∀ (api : ApiServer) (env : Env) (x : Pod), api.HonoursFieldSelectors →
        PlainValue (Getenv env "NODE_NAME") = true →
        (x ∈ podCache api s.podInformer env ↔
          x ∈ api.pods ∧ x.NodeName = Getenv env "NODE_NAME"))) := by
  refine ⟨newResticServer_ok_of_not_fails w p logger baseName locationName, ?_⟩
  intro s h
  obtain ⟨cfg, kc, ac, loc, env1, h1, h2, h3, h4, h5, h6, herr, hproc, htr, hsv⟩ :=
    newResticServer_some w p logger baseName locationName s h
  subst hsv
  refine ⟨rfl, rfl, fun _ _ => rfl, ?_, ?_⟩
  · intro env hnone
    simp [SharedIndexInformer.listOptions, NewFilteredPodInformer, Getenv, hnone]
  · intro api env x hapi hplain
    have hx := (hapi (Getenv env "NODE_NAME") hplain).1 NamespaceAll
      (SharedIndexInformer.listOptions
        (NewFilteredPodInformer kc NamespaceAll 0 ["namespace"]
          (fun e opts => { opts with FieldSelector := "spec.nodeName=" ++ Getenv e "NODE_NAME" }))
        env)
      x rfl rfl
    simp only [podCache]
    rw [show (NewFilteredPodInformer kc NamespaceAll 0 ["namespace"]
          (fun e opts =>
            { opts with FieldSelector := "spec.nodeName=" ++ Getenv e "NODE_NAME" })).ns
        = NamespaceAll from rfl]
    rw [hx]
    simp [inScope]

/-- In scenario A the lookup of location `default` in namespace `heptio-ark` succeeds. -/
theorem worldA_location (ac : ArkClient) :
    worldA.getBackupStorageLocation ac "heptio-ark" "default" =
      .ok ⟨"heptio-ark", "default", ⟨"aws", []⟩⟩ := by
  rfl

/-- No startup step fails in scenario A, also with `NODE_NAME` unset. -/
theorem worldA_not_fails : ¬ StartupFails worldA procNodeUnset "ark-server" "default" := by
  have hns : Getenv procNodeUnset.env "HEPTIO_ARK_NAMESPACE" = "heptio-ark" := by rfl
  intro hf
  cases hf with
  | clientConfig e h => simp [worldA, sampleWorld] at h
  | kubernetesNewForConfig cfg e h1 h2 => simp [worldA, sampleWorld] at h2
  | clientsetNewForConfig cfg kc e h1 h2 h3 => simp [worldA, sampleWorld] at h3
  | getLocation cfg kc ac e h1 h2 h3 h4 =>
    rw [hns, worldA_location] at h4
    cases h4
  | setResticEnvVars cfg kc ac loc e h1 h2 h3 h4 h5 h6 =>
    rw [hns, worldA_location] at h4
    cases h4
    revert h5
    decide

/-- Scenario D, and the same server started with `NODE_NAME` unset: startup
succeeds, the selector is `spec.nodeName=` and the cache holds the pod that is
not scheduled yet; with `NODE_NAME` set to `node-7` the pod on `node-7` is in
the cache and the pod on `node-9` is not. -/
theorem pod_stream_filters_on_node_name_witness :
    (newResticServer worldA procNodeUnset ⟨"info"⟩ "ark-server" "default").server.isSome = true ∧
    (serverA.podInformer.listOptions procNodeUnset.env).FieldSelector = "spec.nodeName=" ∧
    ((⟨"app", "web-0", "node-7"⟩ : Pod) ∈ podCache clusterD serverA.podInformer sampleProc.env ↔
      (⟨"app", "web-0", "node-7"⟩ : Pod) ∈ clusterD.pods ∧
        "node-7" = Getenv sampleProc.env "NODE_NAME") ∧
    ((⟨"app", "web-1", "node-9"⟩ : Pod) ∈ podCache clusterD serverA.podInformer sampleProc.env ↔
      (⟨"app", "web-1", "node-9"⟩ : Pod) ∈ clusterD.pods ∧
        "node-9" = Getenv sampleProc.env "NODE_NAME") ∧
    ((⟨"app", "pending-0", ""⟩ : Pod) ∈
        podCache clusterD serverA.podInformer procNodeUnset.env ↔
      (⟨"app", "pending-0", ""⟩ : Pod) ∈ clusterD.pods ∧
        "" = Getenv procNodeUnset.env "NODE_NAME") :=
  ⟨(pod_stream_filters_on_node_name worldA procNodeUnset ⟨"info"⟩ "ark-server" "default").1
      worldA_not_fails,
   ((pod_stream_filters_on_node_name worldA procNodeUnset ⟨"info"⟩ "ark-server" "default").2
      serverA (by rfl)).2.2.2.1 procNodeUnset.env (by rfl),
   ((pod_stream_filters_on_node_name worldA procNodeUnset ⟨"info"⟩ "ark-server" "default").2
      serverA (by rfl)).2.2.2.2 clusterD sampleProc.env ⟨"app", "web-0", "node-7"⟩
      (kubeServer_honours _ _) (by decide),
   ((pod_stream_filters_on_node_name worldA procNodeUnset ⟨"info"⟩ "ark-server" "default").2
      serverA (by rfl)).2.2.2.2 clusterD sampleProc.env ⟨"app", "web-1", "node-9"⟩
      (kubeServer_honours _ _) (by decide),
   ((pod_stream_filters_on_node_name worldA procNodeUnset ⟨"info"⟩ "ark-server" "default").2
      serverA (by rfl)).2.2.2.2 clusterD procNodeUnset.env ⟨"app", "pending-0", ""⟩
      (kubeServer_honours _ _) (by decide)⟩

/-- C4 fails as stated: `NODE_NAME` goes into the selector unescaped.  With
the value `node-7,metadata.name=web-0` the selector holds two requirements and
the cache of a server that honours field selectors holds the pod `web-0`,
whose `spec.nodeName` is `node-7` and not that value; with the value
`=node-9` the selector reads `spec.nodeName==node-9` and the cache holds the
pod on `node-9`. -/
theorem pod_cache_node_name_unescaped :
    clusterD.HonoursFieldSelectors ∧
    (newResticServer worldA procComma ⟨"info"⟩ "ark-server" "default").server = some serverA ∧
    (serverA.podInformer.listOptions procComma.env).FieldSelector =
      "spec.nodeName=node-7,metadata.name=web-0" ∧
    podCache clusterD serverA.podInformer procComma.env = [⟨"app", "web-0", "node-7"⟩] ∧
    (⟨"app", "web-0", "node-7"⟩ : Pod).NodeName ≠ Getenv procComma.env "NODE_NAME" ∧
    (newResticServer worldA procEquals ⟨"info"⟩ "ark-server" "default").server = some serverA ∧
    (serverA.podInformer.listOptions procEquals.env).FieldSelector = "spec.nodeName==node-9" ∧
    podCache clusterD serverA.podInformer procEquals.env = [⟨"app", "web-1", "node-9"⟩] ∧
    (⟨"app", "web-1", "node-9"⟩ : Pod).NodeName ≠ Getenv procEquals.env "NODE_NAME" := by
  refine ⟨kubeServer_honours _ _, by rfl, by decide, by decide, by decide, by rfl, by decide,
    by decide, by decide⟩

/-- C5: the secret informer built by `newResticServer` is scoped to the
namespace read from `HEPTIO_ARK_NAMESPACE`, the namespace of the
storage-location lookup, and its tweak function sets the field selector to
`metadata.name=` followed by `restic.CredentialsSecretName`; against a server
that honours this selector its cache holds at most one object, and any
object in it has that name and that namespace.  The server keys secrets by
namespace and name and answers a namespaced `Get` only in a named namespace;
credential placement leaves `HEPTIO_ARK_NAMESPACE` alone. -/
theorem credentials_stream_scoped_by_name (w : World) (p : Proc) (logger : FieldLogger)
    (baseName locationName : String) (s : resticServer)
    (h : (newResticServer w p logger baseName locationName).server = some s)
    (hkeep : w.KeepsNamespaceVar) (hget : w.NamespacedGet) :
    s.secretInformer.resource = Resource.secrets ∧
    s.secretInformer.ns =
      Getenv (newResticServer w p logger baseName locationName).proc.env
        "HEPTIO_ARK_NAMESPACE" ∧
    s.secretInformer.ns = Getenv p.env "HEPTIO_ARK_NAMESPACE" ∧
    Event.getBackupStorageLocation s.secretInformer.ns locationName ∈
      (newResticServer w p logger baseName locationName).trace ∧
    (∀ env opts, s.secretInformer.tweakListOptions env opts =
      { opts with FieldSelector := "metadata.name=" ++ w.credentialsSecretName }) ∧
    (∀ (api : ApiServer) (env : Env), api.HonoursSecretName w.credentialsSecretName →
      api.UniqueSecretKeys →
      (∀ a ∈ secretCache api s.secretInformer env,
        ∀ b ∈ secretCache api s.secretInformer env, a = b) ∧
      (∀ a ∈ secretCache api s.secretInformer env,
        a.Name = w.credentialsSecretName ∧ a.Namespace = s.secretInformer.ns)) := by
  obtain ⟨cfg, kc, ac, loc, env1, h1, h2, h3, h4, h5, h6, herr, hproc, htr, hsv⟩ :=
    newResticServer_some w p logger baseName locationName s h
  have henv : Getenv env1 "HEPTIO_ARK_NAMESPACE" = Getenv p.env "HEPTIO_ARK_NAMESPACE" := by
    by_cases hp : loc.Spec.Provider = "azure"
    · have hk := hkeep loc.Spec.Config p.env
      rw [h5 hp] at hk
      exact hk
    · rw [h6 hp]
  have hns : Getenv p.env "HEPTIO_ARK_NAMESPACE" ≠ NamespaceAll := hget _ _ _ _ h4
  subst hsv
  refine ⟨rfl, ?_, henv, ?_, fun _ _ => rfl, ?_⟩
  · rw [hproc]
    rfl
  · rw [htr]
    show Event.getBackupStorageLocation (Getenv env1 "HEPTIO_ARK_NAMESPACE") locationName ∈ _
    rw [henv]
    simp
  · intro api env hapi huniq
    have hmem : ∀ x, x ∈ secretCache api
          ⟨Resource.secrets, kc, Getenv env1 "HEPTIO_ARK_NAMESPACE", 0, ["namespace"],
            fun _ opts =>
              { opts with FieldSelector := "metadata.name=" ++ w.credentialsSecretName }⟩ env ↔
        x ∈ api.secrets ∧ x.Namespace = Getenv p.env "HEPTIO_ARK_NAMESPACE" ∧
          x.Name = w.credentialsSecretName := by
      intro x
      simp only [secretCache, SharedIndexInformer.listOptions]
      rw [hapi (Getenv env1 "HEPTIO_ARK_NAMESPACE") _ x rfl rfl]
      rw [henv]
      simp only [inScope, Bool.or_eq_true, beq_iff_eq]
      constructor
      · rintro ⟨hx, hsc | hsc, hn⟩
        · exact absurd hsc hns
        · exact ⟨hx, hsc.symm, hn⟩
      · rintro ⟨hx, hsc, hn⟩
        exact ⟨hx, Or.inr hsc.symm, hn⟩
    constructor
    · intro a ha b hb
      obtain ⟨ha1, ha2, ha3⟩ := (hmem a).1 ha
      obtain ⟨hb1, hb2, hb3⟩ := (hmem b).1 hb
      exact huniq a ha1 b hb1 (by rw [ha2, hb2]) (by rw [ha3, hb3])
    · intro a ha
      obtain ⟨ha1, ha2, ha3⟩ := (hmem a).1 ha
      exact ⟨ha3, ha2.trans henv.symm⟩

/-- The sample credential helper leaves `HEPTIO_ARK_NAMESPACE` alone. -/
theorem sampleWorld_keeps (locations : List BackupStorageLocation) :
    (sampleWorld locations).KeepsNamespaceVar := by
  intro cfg env
  simp only [sampleWorld, sampleSetResticEnvVars]
  split <;> simp [Getenv, List.lookup]

/-- In scenario A a lookup is answered only in namespace `heptio-ark`. -/
theorem worldA_namespacedGet : worldA.NamespacedGet := by
  intro ac ns name loc h
  simp only [worldA, sampleWorld] at h
  split at h
  · rename_i l hl
    have hp := List.find?_some hl
    have hm := List.mem_of_find?_eq_some hl
    simp only [List.mem_singleton] at hm
    subst hm
    simp only [Bool.and_eq_true, beq_iff_eq] at hp
    rw [← hp.1]
    decide
  · cases h

/-- In scenario D the credentials cache holds the one secret of that name in
the system namespace, although a secret of the same name exists elsewhere. -/
theorem credentials_stream_scoped_by_name_witness :
    (∀ a ∈ secretCache clusterD serverA.secretInformer sampleProc.env,
      ∀ b ∈ secretCache clusterD serverA.secretInformer sampleProc.env, a = b) ∧
    (∀ a ∈ secretCache clusterD serverA.secretInformer sampleProc.env,
      a.Name = worldA.credentialsSecretName ∧ a.Namespace = serverA.secretInformer.ns) :=
  (credentials_stream_scoped_by_name worldA sampleProc ⟨"info"⟩ "ark-server" "default" serverA
    (by rfl) (sampleWorld_keeps _) worldA_namespacedGet).2.2.2.2.2 clusterD sampleProc.env
    (kubeServer_honours _ _ _ (by decide)).2
    (by
      intro a ha b hb
      simp only [clusterD, kubeServer, List.mem_cons, List.mem_singleton, List.not_mem_nil,
        or_false] at ha hb
      rcases ha with rfl | rfl | rfl <;> rcases hb with rfl | rfl | rfl <;> simp)

/-- C9: with `NODE_NAME` equal to `n` while `run` executes and whenever the
selector closure of the pod informer is evaluated, both controller
constructors receive `n` as their node name, the pod informer filters on
`spec.nodeName=n`, and both constructors receive the pod informer and the
secret informer of the server. -/
theorem node_scope_matches_pod_filter (w : World) (p : Proc) (logger : FieldLogger)
    (baseName locationName : String) (s : resticServer) (n : String) (envRun envEval : Env)
    (h : (newResticServer w p logger baseName locationName).server = some s)
    (hrun : Getenv envRun "NODE_NAME" = n) (heval : Getenv envEval "NODE_NAME" = n) :
    (∃ args, Stmt.newPodVolumeBackupController args ∈ run s envRun) ∧
    (∃ args, Stmt.newPodVolumeRestoreController args ∈ run s envRun) ∧
    (∀ args, (Stmt.newPodVolumeBackupController args ∈ run s envRun ∨
        Stmt.newPodVolumeRestoreController args ∈ run s envRun) →
      args.nodeName = n ∧ args.podInformer = s.podInformer ∧
        args.secretInformer = s.secretInformer) ∧
    s.podInformer.resource = Resource.pods ∧
    s.secretInformer.resource = Resource.secrets ∧
    (∀ opts, (s.podInformer.tweakListOptions envEval opts).FieldSelector =
      "spec.nodeName=" ++ n) := by
  obtain ⟨cfg, kc, ac, loc, env1, h1, h2, h3, h4, h5, h6, herr, hproc, htr, hsv⟩ :=
    newResticServer_some w p logger baseName locationName s h
  refine ⟨⟨_, by simp [run]; rfl⟩, ⟨_, by simp [run]; rfl⟩, ?_, ?_, ?_, ?_⟩
  · intro args hmem
    simp [run] at hmem
    subst hmem
    exact ⟨hrun, rfl, rfl⟩
  · rw [hsv]
    rfl
  · rw [hsv]
    rfl
  · intro opts
    rw [hsv, ← heval]
    rfl

/-- In scenario A with `NODE_NAME` set to `node-7`, both controllers are
scoped to `node-7` and the pod informer filters on `spec.nodeName=node-7`. -/
theorem node_scope_matches_pod_filter_witness :
    (∃ args, Stmt.newPodVolumeBackupController args ∈ run serverA sampleProc.env) ∧
    (∃ args, Stmt.newPodVolumeRestoreController args ∈ run serverA sampleProc.env) ∧
    (∀ args, (Stmt.newPodVolumeBackupController args ∈ run serverA sampleProc.env ∨
        Stmt.newPodVolumeRestoreController args ∈ run serverA sampleProc.env) →
      args.nodeName = "node-7" ∧ args.podInformer = serverA.podInformer ∧
        args.secretInformer = serverA.secretInformer) ∧
    serverA.podInformer.resource = Resource.pods ∧
    serverA.secretInformer.resource = Resource.secrets ∧
    (∀ opts, (serverA.podInformer.tweakListOptions sampleProc.env opts).FieldSelector =
      "spec.nodeName=" ++ "node-7") :=
  node_scope_matches_pod_filter worldA sampleProc ⟨"info"⟩ "ark-server" "default" serverA
    "node-7" sampleProc.env sampleProc.env (by rfl) (by rfl) (by rfl)


/-- What `setConfigDefaults` does to the cell behind a valid pointer: it
returns no error and rewrites that cell only. -/
theorem setConfigDefaults_valid (g : ClientGlobals) (st : Store) (config : Nat) (v : RestConfig)
    (h : st[config]? = some v) :
    setConfigDefaults g st config = some
      (st.set config
        { v with
          GroupVersion := some g.SchemeGroupVersion
          APIPath := "/apis"
          NegotiatedSerializer := some ⟨g.Codecs⟩
          UserAgent := if v.UserAgent = "" then g.DefaultKubernetesUserAgent else v.UserAgent },
       none) := by
  have hlt : config < st.length := (List.getElem?_eq_some_iff.1 h).1
  by_cases hu : v.UserAgent = ""
  · simp [setConfigDefaults, Store.modify, h, hlt, hu, List.set_set]
  · simp [setConfigDefaults, Store.modify, h, hlt, hu, List.set_set]

/-- The function `setConfigDefaults` never returns an error. -/
theorem setConfigDefaults_no_error (g : ClientGlobals) (st st' : Store) (config : Nat)
    (err : Option GoError) (h : setConfigDefaults g st config = some (st', err)) :
    err = none := by
  cases hv : st[config]? with
  | none => simp [setConfigDefaults, Store.modify, hv] at h
  | some v =>
    rw [setConfigDefaults_valid g st config v hv] at h
    simp only [Option.some.injEq, Prod.mk.injEq] at h
    exact h.2.symm

/-- C10: called with a valid pointer `c`, `NewForConfig` returns, and leaves
every cell of the caller, the one behind `c` included, unchanged:
`setConfigDefaults` works on a copy in a new cell.  That copy, from which
`rest.RESTClientFor` builds the client, has the ark v1 group version, the API
path `/apis`, and the user agent of the caller when that is non-empty, the
default Kubernetes user agent otherwise.  `setConfigDefaults` never returns an
error, and `NewForConfig` fails exactly when `rest.RESTClientFor` fails, with
the same error. -/
theorem NewForConfig_defaults (g : ClientGlobals)
    (RESTClientFor : RestConfig → Except GoError RESTClient)
    (st : Store) (c : Nat) (v : RestConfig) (hc : st[c]? = some v) :
    ∃ r built,
      NewForConfig g RESTClientFor st c = some r ∧
      (∀ a, a < st.length → r.store[a]? = st[a]?) ∧
      r.store[c]? = some v ∧
      r.store[st.length]? = some built ∧
      built.GroupVersion = some g.SchemeGroupVersion ∧
      built.APIPath = "/apis" ∧
      built.UserAgent =
        (if v.UserAgent = "" then g.DefaultKubernetesUserAgent else v.UserAgent) ∧
      built.Host = v.Host ∧
      built.Other = v.Other ∧
      (∀ e, RESTClientFor built = .error e → r.err = some e ∧ r.client = none) ∧
      (∀ client, RESTClientFor built = .ok client →
        r.err = none ∧ r.client = some ⟨client⟩) ∧
      (r.err.isSome = true ↔ ∃ e, RESTClientFor built = .error e) ∧
      (∀ (st0 st1 : Store) (a : Nat) (err : Option GoError),
        setConfigDefaults g st0 a = some (st1, err) → err = none) := by
  have hlt : c < st.length := (List.getElem?_eq_some_iff.1 hc).1
  have hcell : (st ++ [v])[st.length]? = some v := List.getElem?_concat_length st v
  have hset := setConfigDefaults_valid g (st ++ [v]) st.length v hcell
  have hbuilt : ((st ++ [v]).set st.length
      { v with
        GroupVersion := some g.SchemeGroupVersion
        APIPath := "/apis"
        NegotiatedSerializer := some ⟨g.Codecs⟩
        UserAgent :=
          if v.UserAgent = "" then g.DefaultKubernetesUserAgent else v.UserAgent })[st.length]? =
      some { v with
        GroupVersion := some g.SchemeGroupVersion
        APIPath := "/apis"
        NegotiatedSerializer := some ⟨g.Codecs⟩
        UserAgent :=
          if v.UserAgent = "" then g.DefaultKubernetesUserAgent else v.UserAgent } := by
    simp
  have hframe : ∀ a, a < st.length → ((st ++ [v]).set st.length
      { v with
        GroupVersion := some g.SchemeGroupVersion
        APIPath := "/apis"
        NegotiatedSerializer := some ⟨g.Codecs⟩
        UserAgent :=
          if v.UserAgent = "" then g.DefaultKubernetesUserAgent else v.UserAgent })[a]? =
      st[a]? := by
    intro a ha
    rw [List.getElem?_set_ne (by omega), List.getElem?_append_left ha]
  cases hr : RESTClientFor
      { v with
        GroupVersion := some g.SchemeGroupVersion
        APIPath := "/apis"
        NegotiatedSerializer := some ⟨g.Codecs⟩
        UserAgent :=
          if v.UserAgent = "" then g.DefaultKubernetesUserAgent else v.UserAgent } with
  | error e =>
    refine ⟨⟨none, some e, _⟩, _, ?_, hframe, ?_, hbuilt, rfl, rfl, rfl, rfl, rfl, ?_, ?_, ?_,
      setConfigDefaults_no_error g⟩
    · simp only [NewForConfig, hc, hset, hbuilt, hr]
    · rw [hframe c hlt]
      exact hc
    · intro e' he'
      rw [hr] at he'
      cases he'
      exact ⟨rfl, rfl⟩
    · intro client he'
      rw [hr] at he'
      cases he'
    · simp [hr]
  | ok client =>
    refine ⟨⟨some ⟨client⟩, none, _⟩, _, ?_, hframe, ?_, hbuilt, rfl, rfl, rfl, rfl, rfl, ?_, ?_,
      ?_, setConfigDefaults_no_error g⟩
    · simp only [NewForConfig, hc, hset, hbuilt, hr]
    · rw [hframe c hlt]
      exact hc
    · intro e' he'
      rw [hr] at he'
      cases he'
    · intro client' he'
      rw [hr] at he'
      cases he'
      exact ⟨rfl, rfl⟩
    · simp [hr]

/-- A caller whose configuration has no user agent: its cell is unchanged, the
copy carries the defaults, and the client is built. -/
theorem NewForConfig_defaults_witness :
    ∃ r built,
      NewForConfig arkGlobals sampleRESTClientFor [sampleConfig] 0 = some r ∧
      (∀ a, a < [sampleConfig].length → r.store[a]? = [sampleConfig][a]?) ∧
      r.store[0]? = some sampleConfig ∧
      r.store[[sampleConfig].length]? = some built ∧
      built.GroupVersion = some arkGlobals.SchemeGroupVersion ∧
      built.APIPath = "/apis" ∧
      built.UserAgent =
        (if sampleConfig.UserAgent = "" then arkGlobals.DefaultKubernetesUserAgent
         else sampleConfig.UserAgent) ∧
      built.Host = sampleConfig.Host ∧
      built.Other = sampleConfig.Other ∧
      (∀ e, sampleRESTClientFor built = .error e → r.err = some e ∧ r.client = none) ∧
      (∀ client, sampleRESTClientFor built = .ok client →
        r.err = none ∧ r.client = some ⟨client⟩) ∧
      (r.err.isSome = true ↔ ∃ e, sampleRESTClientFor built = .error e) ∧
      (∀ (st0 st1 : Store) (a : Nat) (err : Option GoError),
        setConfigDefaults arkGlobals st0 a = some (st1, err) → err = none) :=
  NewForConfig_defaults arkGlobals sampleRESTClientFor [sampleConfig] 0 sampleConfig (by rfl)

end Ark
